import Mathlib

/-!
# Verification of the dynamic compound-interest calculator's core

Shallow embedding of the projection engine (`buildProjection` and its
helpers), the date utilities (`normalizeDateValue`, `formatDateForInput`,
`isPurchaseDateInFuture`, `getWholeMonthsUntilYearEnd`), the multi-scenario
chart aggregation (`chartData`) and the withdrawal-date resolver
(`getWithdrawalDate`).

Modelling conventions:
* JavaScript numbers are modelled as exact rationals (`ℚ`); the source's
  double-precision rounding is abstracted away.
* `Math.pow` with a fractional exponent is transcendental and has no exact
  rational value, so the engine is parameterised by an oracle
  `powFn : ℚ → ℚ → ℚ` standing for `Math.pow`.  `jsPowInt` below is a
  concrete instantiation that agrees with `Math.pow` at integer exponents,
  as used by concrete witnesses.
* JavaScript `Date` objects (as used by the code: year/month/day at local
  midnight) are modelled by `JsDate`, and the `new Date(year, month, day)`
  constructor by `mkJsDate`, including ECMA-262's mapping of years 0–99 to
  1900–1999 and the month/day overflow normalisation.
* `new Date(string)` on a general (non-ISO, non-slash) string is
  implementation-defined in ECMA-262; it is modelled as an oracle
  `fallback : String → Option JsDate`.
-/

namespace CompoundCalc

/-- The scenario settings record (`CompoundSettings` in `types/finance`).
Only the numeric fields that enter `buildProjection` are carried; the
display-only fields (`targetBalance`, `vuaaShareCount`, `vuaaPurchasePrice`,
`vuaaPurchaseDate`, `birthDate`, `retirementAge`) do not affect the
compounding math. -/
structure CompoundSettings where
  principal : ℚ
  contribution : ℚ
  contributionFrequency : ℚ
  annualReturn : ℚ
  compoundingFrequency : ℚ
  years : ℚ
  fundExpenseRatio : ℚ
  platformFee : ℚ
  inflationRate : ℚ
  annualExpenses : ℚ
deriving DecidableEq

/-- `ProjectionOptions`: `remainingContributionMonths?` is optional. -/
structure ProjectionOptions where
  remainingContributionMonths : Option ℚ := none

structure ProjectionPoint where
  year : ℚ
  balance : ℚ
deriving DecidableEq

structure YearlyBreakdown where
  year : ℚ
  endingBalance : ℚ
  contributions : ℚ
  growth : ℚ
  annualInterest : ℚ
  allowedWithdrawal : ℚ
deriving DecidableEq

structure ProjectionTotals where
  contributions : ℚ
  growth : ℚ
  endingBalance : ℚ
deriving DecidableEq

structure FireMetrics where
  fireNumber : ℚ
  yearsToFire : Option ℚ
  fireYear : Option ℚ
deriving DecidableEq

structure ProjectionResult where
  chartPoints : List ProjectionPoint
  table : List YearlyBreakdown
  totals : ProjectionTotals
  fireMetrics : FireMetrics
deriving DecidableEq

/-- `const WITHDRAWAL_RATE = 0.04`. -/
def WITHDRAWAL_RATE : ℚ := 4 / 100

/-- `clampPositive(value, fallback)`: `Number.isFinite(value) && value > 0 ?
value : fallback`.  Every rational is finite, so the finiteness test is
always true in this model. -/
def clampPositive (value fallback : ℚ) : ℚ :=
  if 0 < value then value else fallback

/-- `getNetAnnualRate(expectedReturnPct, expensesPct)`. -/
def getNetAnnualRate (expectedReturnPct expensesPct : ℚ) : ℚ :=
  (1 + expectedReturnPct / 100) * (1 - expensesPct / 100) - 1

/-- `Number(x.toFixed(2))` for a non-negative `x`: round to two decimals,
ties away from zero (hence half-up for the non-negative year labels this is
applied to). -/
def roundTo2 (q : ℚ) : ℚ := (round (q * 100) : ℤ) / 100

/-- JavaScript's `%` on non-negative operands with a positive divisor
(`period % compounding` with `period ≥ 1` and `compounding > 0`):
`a - b * trunc(a / b)`, and truncation is flooring for a non-negative
quotient. -/
def jsMod (a b : ℚ) : ℚ := a - b * (⌊a / b⌋ : ℤ)

/-- `const compounding = clampPositive(settings.compoundingFrequency, 1)`. -/
def compoundingOf (s : CompoundSettings) : ℚ :=
  clampPositive s.compoundingFrequency 1

/-- `const years = clampPositive(settings.years, 1)`. -/
def yearsOf (s : CompoundSettings) : ℚ :=
  clampPositive s.years 1

/-- `const inflationRate = (settings.inflationRate ?? 0) / 100`
(`inflationRate` is a required `number` field, so `?? 0` never fires). -/
def inflationRateOf (s : CompoundSettings) : ℚ := s.inflationRate / 100

/-- `const fireNumber = annualExpenses * 25` with
`annualExpenses = settings.annualExpenses ?? 0` (a required field). -/
def fireNumberOf (s : CompoundSettings) : ℚ := s.annualExpenses * 25

/-- `const contributionPerPeriod = settings.contribution *
(settings.contributionFrequency / compounding)`. -/
def contributionPerPeriodOf (s : CompoundSettings) : ℚ :=
  s.contribution * (s.contributionFrequency / compoundingOf s)

/-- `Math.min(Math.max(options.remainingContributionMonths ?? 12, 0), 12)`. -/
def normalizedContributionMonths (o : ProjectionOptions) : ℚ :=
  min (max (o.remainingContributionMonths.getD 12) 0) 12

/-- `const firstYearContributionFactor = normalizedContributionMonths / 12`. -/
def firstYearContributionFactorOf (o : ProjectionOptions) : ℚ :=
  normalizedContributionMonths o / 12

/-- `const growthFactor = Math.max(1 + netAnnualRate, 0.0001)`. -/
def growthFactorOf (s : CompoundSettings) : ℚ :=
  max (1 + getNetAnnualRate s.annualReturn (s.fundExpenseRatio + s.platformFee))
    (1 / 10000)

/-- `const periodicRate = Math.pow(growthFactor, 1 / compounding) - 1`,
with `Math.pow` supplied as the oracle `powFn`. -/
def periodicRateOf (powFn : ℚ → ℚ → ℚ) (s : CompoundSettings) : ℚ :=
  powFn (growthFactorOf s) (1 / compoundingOf s) - 1

/-- `const totalPeriods = Math.ceil(years * compounding)` (positive, since
both factors are positive after clamping). -/
def totalPeriodsOf (s : CompoundSettings) : ℕ :=
  (⌈yearsOf s * compoundingOf s⌉ : ℤ).toNat

/-- The year label pushed at a boundary:
`Number((period / compounding).toFixed(2))`. -/
def yearAt (s : CompoundSettings) (period : ℕ) : ℚ :=
  roundTo2 ((period : ℚ) / compoundingOf s)

/-- `period % compounding === 0 || period === totalPeriods`. -/
def isYearBoundary (s : CompoundSettings) (period : ℕ) : Prop :=
  jsMod (period : ℚ) (compoundingOf s) = 0 ∨ period = totalPeriodsOf s

instance (s : CompoundSettings) (period : ℕ) : Decidable (isYearBoundary s period) := by
  unfold isYearBoundary; infer_instance

/-- `const adjustedContribution = contributionPerPeriod * contributionFactor`
where `contributionFactor = period <= compounding ?
firstYearContributionFactor : 1`. -/
def adjustedContribution (s : CompoundSettings) (o : ProjectionOptions)
    (period : ℕ) : ℚ :=
  contributionPerPeriodOf s *
    (if (period : ℚ) ≤ compoundingOf s then firstYearContributionFactorOf o else 1)

/-- One period's balance update: `balance *= 1 + periodicRate`, then
`if (adjustedContribution > 0) balance += adjustedContribution`. -/
def updBalance (powFn : ℚ → ℚ → ℚ) (s : CompoundSettings) (o : ProjectionOptions)
    (b : ℚ) (period : ℕ) : ℚ :=
  let b1 := b * (1 + periodicRateOf powFn s)
  if 0 < adjustedContribution s o period then b1 + adjustedContribution s o period else b1

/-- One period's running-contributions update:
`if (adjustedContribution > 0) totalContributions += adjustedContribution`. -/
def updContrib (s : CompoundSettings) (o : ProjectionOptions)
    (tc : ℚ) (period : ℕ) : ℚ :=
  if 0 < adjustedContribution s o period then tc + adjustedContribution s o period else tc

/-- The mutable state of `buildProjection`'s `for` loop. -/
structure LoopState where
  balance : ℚ
  totalContributions : ℚ
  fireYear : Option ℚ
  previousGrowth : ℚ
  chartPoints : List ProjectionPoint
  table : List YearlyBreakdown

/-- State before the loop: `balance = principal`,
`totalContributions = principal`, `previousGrowth = 0`,
`chartPoints = [{year: 0, balance: principal}]`, `table = []`, and
`fireYear = 0` iff `fireNumber > 0 && balance >= fireNumber`. -/
def initState (s : CompoundSettings) : LoopState :=
  { balance := s.principal
    totalContributions := s.principal
    fireYear :=
      if 0 < fireNumberOf s ∧ fireNumberOf s ≤ s.principal then some 0 else none
    previousGrowth := 0
    chartPoints := [⟨0, s.principal⟩]
    table := [] }

/-- The body of `for (let period = 1; period <= totalPeriods; period += 1)`. -/
def stepPeriod (powFn : ℚ → ℚ → ℚ) (s : CompoundSettings) (o : ProjectionOptions)
    (st : LoopState) (period : ℕ) : LoopState :=
  let balance2 := updBalance powFn s o st.balance period
  let tc2 := updContrib s o st.totalContributions period
  if isYearBoundary s period then
    let year := yearAt s period
    let discountFactor := powFn (1 + inflationRateOf s) year
    let realBalance := balance2 / discountFactor
    let fireYear2 :=
      if 0 < fireNumberOf s ∧ st.fireYear = none ∧ fireNumberOf s ≤ realBalance then
        some year
      else st.fireYear
    let currentGrowth := max (realBalance - tc2) 0
    let annualInterest := currentGrowth - st.previousGrowth
    { balance := balance2
      totalContributions := tc2
      fireYear := fireYear2
      previousGrowth := currentGrowth
      chartPoints := st.chartPoints ++ [⟨year, realBalance⟩]
      table := st.table ++
        [⟨year, realBalance, tc2, currentGrowth, annualInterest,
          realBalance * WITHDRAWAL_RATE⟩] }
  else
    { st with balance := balance2, totalContributions := tc2 }

/-- State after the periods `1 … n` of the loop have run. -/
def runPeriods (powFn : ℚ → ℚ → ℚ) (s : CompoundSettings) (o : ProjectionOptions) :
    ℕ → LoopState
  | 0 => initState s
  | n + 1 => stepPeriod powFn s o (runPeriods powFn s o n) (n + 1)

/-- `buildProjection(settings, options)` (the FIRE-aware projection engine). -/
def buildProjection (powFn : ℚ → ℚ → ℚ) (s : CompoundSettings)
    (o : ProjectionOptions) : ProjectionResult :=
  let final := runPeriods powFn s o (totalPeriodsOf s)
  let realEndingBalance := final.balance / powFn (1 + inflationRateOf s) (yearsOf s)
  { chartPoints := final.chartPoints
    table := final.table
    totals :=
      { contributions := final.totalContributions
        growth := max (realEndingBalance - final.totalContributions) 0
        endingBalance := realEndingBalance }
    fireMetrics :=
      { fireNumber := fireNumberOf s
        yearsToFire := final.fireYear
        fireYear := final.fireYear } }

/-- A concrete stand-in for the `Math.pow` oracle: agrees with `Math.pow`
whenever the exponent is an integer (the only exponents arising in the
concrete instances below, where `compounding = 1` and all year labels are
integers). -/
def jsPowInt (x y : ℚ) : ℚ :=
  if y.den = 1 then
    if 0 ≤ y.num then x ^ y.num.toNat else (x ^ (-y.num).toNat)⁻¹
  else 0

end CompoundCalc

namespace CompoundCalc

/-! ## Loop characterisation lemmas -/

/-- The raw (nominal) balance after `n` loop periods. -/
def balanceAfter (powFn : ℚ → ℚ → ℚ) (s : CompoundSettings) (o : ProjectionOptions)
    (n : ℕ) : ℚ :=
  (runPeriods powFn s o n).balance

/-- The inflation-discounted balance the loop computes at period `n`:
`balance / Math.pow(1 + inflationRate, year)` with the rounded year label. -/
def realBalanceAt (powFn : ℚ → ℚ → ℚ) (s : CompoundSettings) (o : ProjectionOptions)
    (n : ℕ) : ℚ :=
  balanceAfter powFn s o n / powFn (1 + inflationRateOf s) (yearAt s n)

theorem stepPeriod_balance (powFn : ℚ → ℚ → ℚ) (s : CompoundSettings)
    (o : ProjectionOptions) (st : LoopState) (p : ℕ) :
    (stepPeriod powFn s o st p).balance = updBalance powFn s o st.balance p := by
  by_cases h : isYearBoundary s p <;> simp [stepPeriod, h]

theorem stepPeriod_totalContributions (powFn : ℚ → ℚ → ℚ) (s : CompoundSettings)
    (o : ProjectionOptions) (st : LoopState) (p : ℕ) :
    (stepPeriod powFn s o st p).totalContributions = updContrib s o st.totalContributions p := by
  by_cases h : isYearBoundary s p <;> simp [stepPeriod, h]

theorem balanceAfter_succ (powFn : ℚ → ℚ → ℚ) (s : CompoundSettings)
    (o : ProjectionOptions) (n : ℕ) :
    balanceAfter powFn s o (n + 1) =
      updBalance powFn s o (balanceAfter powFn s o n) (n + 1) := by
  simp [balanceAfter, runPeriods, stepPeriod_balance]

theorem stepPeriod_fireYear (powFn : ℚ → ℚ → ℚ) (s : CompoundSettings)
    (o : ProjectionOptions) (st : LoopState) (p : ℕ) :
    (stepPeriod powFn s o st p).fireYear =
      if isYearBoundary s p ∧ 0 < fireNumberOf s ∧ st.fireYear = none ∧
          fireNumberOf s ≤
            updBalance powFn s o st.balance p / powFn (1 + inflationRateOf s) (yearAt s p) then
        some (yearAt s p)
      else st.fireYear := by
  by_cases h : isYearBoundary s p <;> simp [stepPeriod, h]

theorem stepPeriod_table (powFn : ℚ → ℚ → ℚ) (s : CompoundSettings)
    (o : ProjectionOptions) (st : LoopState) (p : ℕ) :
    (stepPeriod powFn s o st p).table =
      st.table ++
        (if isYearBoundary s p then
          [let realBalance :=
            updBalance powFn s o st.balance p / powFn (1 + inflationRateOf s) (yearAt s p)
           let currentGrowth := max (realBalance - updContrib s o st.totalContributions p) 0
           ⟨yearAt s p, realBalance, updContrib s o st.totalContributions p, currentGrowth,
            currentGrowth - st.previousGrowth, realBalance * WITHDRAWAL_RATE⟩]
        else []) := by
  by_cases h : isYearBoundary s p <;> simp [stepPeriod, h]

theorem stepPeriod_previousGrowth (powFn : ℚ → ℚ → ℚ) (s : CompoundSettings)
    (o : ProjectionOptions) (st : LoopState) (p : ℕ) :
    (stepPeriod powFn s o st p).previousGrowth =
      if isYearBoundary s p then
        max (updBalance powFn s o st.balance p / powFn (1 + inflationRateOf s) (yearAt s p) -
          updContrib s o st.totalContributions p) 0
      else st.previousGrowth := by
  by_cases h : isYearBoundary s p <;> simp [stepPeriod, h]

/-! ## C3: growth is non-negative in every row and in totals -/

theorem table_growth_nonneg (powFn : ℚ → ℚ → ℚ) (s : CompoundSettings)
    (o : ProjectionOptions) (n : ℕ) :
    ∀ row ∈ (runPeriods powFn s o n).table, 0 ≤ row.growth := by
  induction n with
  | zero => simp [runPeriods, initState]
  | succ n ih =>
    intro row hrow
    rw [runPeriods, stepPeriod_table] at hrow
    rcases List.mem_append.mp hrow with h | h
    · exact ih row h
    · by_cases hb : isYearBoundary s (n + 1)
      · simp only [if_pos hb, List.mem_singleton] at h
        subst h
        exact le_max_right _ _
      · simp [hb] at h

/-- **C3.** In the result of `buildProjection`, the `growth` field is
non-negative in every table row and in `totals`, for every settings,
options and `Math.pow` oracle. -/
theorem buildProjection_growth_nonneg (powFn : ℚ → ℚ → ℚ) (s : CompoundSettings)
    (o : ProjectionOptions) :
    (∀ row ∈ (buildProjection powFn s o).table, 0 ≤ row.growth) ∧
      0 ≤ (buildProjection powFn s o).totals.growth := by
  constructor
  · intro row hrow
    exact table_growth_nonneg powFn s o (totalPeriodsOf s) row hrow
  · exact le_max_right _ _

/-! ## C4: a zero FIRE target is never marked achieved -/

theorem runPeriods_fireYear_of_fireNumber_nonpos (powFn : ℚ → ℚ → ℚ)
    (s : CompoundSettings) (o : ProjectionOptions) (hfn : ¬ 0 < fireNumberOf s) (n : ℕ) :
    (runPeriods powFn s o n).fireYear = none := by
  induction n with
  | zero => simp [runPeriods, initState, hfn]
  | succ n ih =>
    rw [runPeriods, stepPeriod_fireYear]
    simp [ih, hfn]

/-- **C4.** If `annualExpenses = 0` then `fireMetrics.fireNumber = 0` and
`fireMetrics.fireYear` stays `null`, for every options and `Math.pow`
oracle: a zero target is never marked achieved. -/
theorem buildProjection_fireYear_none_of_zero_expenses (powFn : ℚ → ℚ → ℚ)
    (s : CompoundSettings) (o : ProjectionOptions) (h : s.annualExpenses = 0) :
    (buildProjection powFn s o).fireMetrics.fireNumber = 0 ∧
      (buildProjection powFn s o).fireMetrics.fireYear = none ∧
      (buildProjection powFn s o).fireMetrics.yearsToFire = none := by
  have hfn : fireNumberOf s = 0 := by simp [fireNumberOf, h]
  have hnp : ¬ 0 < fireNumberOf s := by simp [hfn]
  refine ⟨by simp [buildProjection, hfn], ?_, ?_⟩ <;>
    simp [buildProjection, runPeriods_fireYear_of_fireNumber_nonpos powFn s o hnp]

end CompoundCalc

namespace CompoundCalc

/-! ## C1: `fireYear` is the first boundary at which the discounted balance
reached the FIRE target -/

/-- The label of the first year boundary among the periods `1 … n` at which
the discounted balance reached the FIRE target. -/
def firstHit (powFn : ℚ → ℚ → ℚ) (s : CompoundSettings) (o : ProjectionOptions) :
    ℕ → Option ℚ
  | 0 => none
  | n + 1 =>
    match firstHit powFn s o n with
    | some y => some y
    | none =>
      if isYearBoundary s (n + 1) ∧ fireNumberOf s ≤ realBalanceAt powFn s o (n + 1) then
        some (yearAt s (n + 1))
      else none

theorem runPeriods_fireYear_of_fireNumber_pos (powFn : ℚ → ℚ → ℚ)
    (s : CompoundSettings) (o : ProjectionOptions) (hfn : 0 < fireNumberOf s) (n : ℕ) :
    (runPeriods powFn s o n).fireYear =
      if fireNumberOf s ≤ s.principal then some 0 else firstHit powFn s o n := by
  induction n with
  | zero =>
    by_cases h : fireNumberOf s ≤ s.principal <;>
      simp [runPeriods, initState, firstHit, hfn, h]
  | succ n ih =>
    rw [runPeriods, stepPeriod_fireYear, ih]
    by_cases h : fireNumberOf s ≤ s.principal
    · simp [h]
    · simp only [if_neg h]
      cases hfh : firstHit powFn s o n with
      | some y => simp [firstHit, hfh]
      | none =>
        have hbal : updBalance powFn s o (runPeriods powFn s o n).balance (n + 1) =
            balanceAfter powFn s o (n + 1) := (balanceAfter_succ powFn s o n).symm
        by_cases hb : isYearBoundary s (n + 1)
        · by_cases hr : fireNumberOf s ≤ realBalanceAt powFn s o (n + 1)
          · simp only [realBalanceAt] at hr
            simp [firstHit, realBalanceAt, hfh, hb, hfn, hbal, hr]
          · simp only [realBalanceAt] at hr
            simp [firstHit, realBalanceAt, hfh, hb, hfn, hbal, hr]
        · simp [firstHit, hfh, hb]

theorem firstHit_none_iff_all_miss (powFn : ℚ → ℚ → ℚ) (s : CompoundSettings)
    (o : ProjectionOptions) (n : ℕ) (h : firstHit powFn s o n = none) :
    ∀ q, 1 ≤ q → q ≤ n → isYearBoundary s q →
      realBalanceAt powFn s o q < fireNumberOf s := by
  induction n with
  | zero => omega
  | succ n ih =>
    have hsplit : firstHit powFn s o n = none ∧
        ¬ (isYearBoundary s (n + 1) ∧ fireNumberOf s ≤ realBalanceAt powFn s o (n + 1)) := by
      rw [firstHit] at h
      cases hfh : firstHit powFn s o n with
      | some y => rw [hfh] at h; simp at h
      | none =>
        rw [hfh] at h
        refine ⟨rfl, fun hc => ?_⟩
        rw [if_pos hc] at h
        simp at h
    intro q h1 h2 hb
    rcases Nat.lt_or_ge q (n + 1) with hq | hq
    · exact ih hsplit.1 q h1 (by omega) hb
    · have : q = n + 1 := by omega
      subst this
      exact lt_of_not_le fun hc => hsplit.2 ⟨hb, hc⟩

theorem firstHit_some_least (powFn : ℚ → ℚ → ℚ) (s : CompoundSettings)
    (o : ProjectionOptions) (n : ℕ) (y : ℚ) (h : firstHit powFn s o n = some y) :
    ∃ p, 1 ≤ p ∧ p ≤ n ∧ isYearBoundary s p ∧
      fireNumberOf s ≤ realBalanceAt powFn s o p ∧ y = yearAt s p ∧
      ∀ q, 1 ≤ q → q < p → isYearBoundary s q →
        realBalanceAt powFn s o q < fireNumberOf s := by
  induction n with
  | zero => rw [firstHit] at h; exact absurd h (by simp)
  | succ n ih =>
    rw [firstHit] at h
    cases hfh : firstHit powFn s o n with
    | some y' =>
      rw [hfh] at h
      obtain rfl : y' = y := by simpa using h
      obtain ⟨p, h1, h2, h3, h4, h5, h6⟩ := ih hfh
      exact ⟨p, h1, by omega, h3, h4, h5, h6⟩
    | none =>
      rw [hfh] at h
      by_cases hc : isYearBoundary s (n + 1) ∧
          fireNumberOf s ≤ realBalanceAt powFn s o (n + 1)
      · rw [if_pos hc] at h
        obtain rfl : yearAt s (n + 1) = y := by simpa using h
        exact ⟨n + 1, by omega, le_refl _, hc.1, hc.2, rfl,
          fun q hq1 hq2 hqb =>
            firstHit_none_iff_all_miss powFn s o n hfh q hq1 (by omega) hqb⟩
      · rw [if_neg hc] at h
        exact absurd h (by simp)

/-- **C1.** For settings with `fireNumber = annualExpenses × 25 > 0`:
`fireYear = 0` when the starting principal already meets the target;
otherwise a non-null `fireYear` is the year label of the first (least) year
boundary at which the inflation-discounted balance reached `fireNumber`
(and every earlier boundary was below it); `yearsToFire` always equals
`fireYear`; and `fireMetrics.fireNumber = annualExpenses × 25`.  This holds
for every `Math.pow` oracle and options. -/
theorem buildProjection_fireYear_least (powFn : ℚ → ℚ → ℚ) (s : CompoundSettings)
    (o : ProjectionOptions) (hfn : 0 < fireNumberOf s) :
    (buildProjection powFn s o).fireMetrics.fireNumber = s.annualExpenses * 25 ∧
    (buildProjection powFn s o).fireMetrics.yearsToFire =
      (buildProjection powFn s o).fireMetrics.fireYear ∧
    (fireNumberOf s ≤ s.principal →
      (buildProjection powFn s o).fireMetrics.fireYear = some 0) ∧
    (¬ fireNumberOf s ≤ s.principal →
      ∀ y, (buildProjection powFn s o).fireMetrics.fireYear = some y →
        ∃ p, 1 ≤ p ∧ p ≤ totalPeriodsOf s ∧ isYearBoundary s p ∧
          fireNumberOf s ≤ realBalanceAt powFn s o p ∧ y = yearAt s p ∧
          ∀ q, 1 ≤ q → q < p → isYearBoundary s q →
            realBalanceAt powFn s o q < fireNumberOf s) := by
  refine ⟨by simp [buildProjection, fireNumberOf], by simp [buildProjection], ?_, ?_⟩
  · intro hp
    simp [buildProjection, runPeriods_fireYear_of_fireNumber_pos powFn s o hfn, hp]
  · intro hp y hy
    simp only [buildProjection, runPeriods_fireYear_of_fireNumber_pos powFn s o hfn,
      if_neg hp] at hy
    exact firstHit_some_least powFn s o (totalPeriodsOf s) y hy

end CompoundCalc

namespace CompoundCalc

/-! ## C5: `annualInterest` is the marginal increase in `growth` -/

/-- `marginalOK prev rows` says that walking `rows` from a previous growth
of `prev`, each row's `annualInterest` is its `growth` minus the previous
boundary's `growth`. -/
def marginalOK : ℚ → List YearlyBreakdown → Prop
  | _, [] => True
  | prev, r :: rest => r.annualInterest = r.growth - prev ∧ marginalOK r.growth rest

theorem marginalOK_append_singleton (l : List YearlyBreakdown) (r : YearlyBreakdown)
    (a : ℚ) (h : marginalOK a l)
    (hr : r.annualInterest = r.growth - (l.map (fun x => x.growth)).getLastD a) :
    marginalOK a (l ++ [r]) := by
  induction l generalizing a with
  | nil => exact ⟨by simpa using hr, trivial⟩
  | cons x xs ih =>
    obtain ⟨hx, hrest⟩ := h
    refine ⟨hx, ih x.growth hrest ?_⟩
    rw [List.map_cons, List.getLastD_cons] at hr
    exact hr

theorem runPeriods_marginal (powFn : ℚ → ℚ → ℚ) (s : CompoundSettings)
    (o : ProjectionOptions) (n : ℕ) :
    marginalOK 0 (runPeriods powFn s o n).table ∧
      (runPeriods powFn s o n).previousGrowth =
        ((runPeriods powFn s o n).table.map (fun x => x.growth)).getLastD 0 := by
  induction n with
  | zero => simp [runPeriods, initState, marginalOK]
  | succ n ih =>
    rw [runPeriods, stepPeriod_table, stepPeriod_previousGrowth]
    by_cases hb : isYearBoundary s (n + 1)
    · simp only [if_pos hb]
      constructor
      · refine marginalOK_append_singleton _ _ _ ih.1 ?_
        simp [ih.2]
      · simp [List.getLastD_concat]
    · simpa [hb] using ih

/-- The concrete settings of C5's worked example: `principal = 10000`,
`contribution = 0`, `annualReturn = 10 %`, `years = 2`, no inflation, no
fees (annual compounding, so that `Math.pow`'s exponents are integers and
`jsPowInt` is exact). -/
def exampleSettingsC5 : CompoundSettings :=
  { principal := 10000, contribution := 0, contributionFrequency := 12,
    annualReturn := 10, compoundingFrequency := 1, years := 2,
    fundExpenseRatio := 0, platformFee := 0, inflationRate := 0,
    annualExpenses := 0 }

/-- **C5.** In every projection, each table row's `annualInterest` is the
marginal increase of `growth` since the previous year boundary (starting
from 0); and on the worked example (`principal = 10000`, `contribution = 0`,
`annualReturn = 10 %`, `years = 2`, zero inflation and fees) the table's
`annualInterest` column is exactly `[1000, 1100]` — the second year
compounds the prior year's growth. -/
theorem buildProjection_annualInterest_marginal :
    (∀ (powFn : ℚ → ℚ → ℚ) (s : CompoundSettings) (o : ProjectionOptions),
      marginalOK 0 (buildProjection powFn s o).table) ∧
    (buildProjection jsPowInt exampleSettingsC5 {}).table.map
        (fun r => r.annualInterest) = [1000, 1100] := by
  constructor
  · intro powFn s o
    exact (runPeriods_marginal powFn s o (totalPeriodsOf s)).1
  · have htp : totalPeriodsOf exampleSettingsC5 = 2 := by
      norm_num [totalPeriodsOf, yearsOf, compoundingOf, clampPositive, exampleSettingsC5,
        Int.ceil_eq_iff]
      decide
    norm_num [buildProjection, htp, runPeriods, stepPeriod, initState, updBalance, updContrib,
      adjustedContribution, contributionPerPeriodOf, compoundingOf, yearsOf, clampPositive,
      firstYearContributionFactorOf, normalizedContributionMonths, periodicRateOf,
      growthFactorOf, getNetAnnualRate, inflationRateOf, fireNumberOf, isYearBoundary, jsMod,
      totalPeriodsOf, yearAt, roundTo2, jsPowInt, exampleSettingsC5, WITHDRAWAL_RATE,
      Int.ceil_eq_iff, Int.floor_eq_iff, round_eq, Int.toNat_ofNat]

end CompoundCalc

namespace CompoundCalc

/-! ## C9: non-positive contributions are never applied -/

theorem compoundingOf_pos (s : CompoundSettings) : 0 < compoundingOf s := by
  unfold compoundingOf clampPositive
  split <;> norm_num
  assumption

theorem firstYearContributionFactor_nonneg (o : ProjectionOptions) :
    0 ≤ firstYearContributionFactorOf o := by
  unfold firstYearContributionFactorOf normalizedContributionMonths
  positivity

theorem adjustedContribution_nonpos (s : CompoundSettings) (o : ProjectionOptions)
    (hc : s.contribution ≤ 0) (hcf : 0 ≤ s.contributionFrequency) (p : ℕ) :
    ¬ 0 < adjustedContribution s o p := by
  have hcpp : contributionPerPeriodOf s ≤ 0 :=
    mul_nonpos_of_nonpos_of_nonneg hc
      (div_nonneg hcf (compoundingOf_pos s).le)
  have hfac : 0 ≤ if (p : ℚ) ≤ compoundingOf s then firstYearContributionFactorOf o else 1 := by
    split
    · exact firstYearContributionFactor_nonneg o
    · norm_num
  exact not_lt.mpr (mul_nonpos_of_nonpos_of_nonneg hcpp hfac)

/-- `s` with its `contribution` field replaced by `0`. -/
def withZeroContribution (s : CompoundSettings) : CompoundSettings :=
  { s with contribution := 0 }

theorem adjustedContribution_zero (s : CompoundSettings) (o : ProjectionOptions) (p : ℕ) :
    adjustedContribution (withZeroContribution s) o p = 0 := by
  simp [adjustedContribution, contributionPerPeriodOf, withZeroContribution]

theorem stepPeriod_zero_contribution (powFn : ℚ → ℚ → ℚ) (s : CompoundSettings)
    (o : ProjectionOptions) (hc : s.contribution ≤ 0) (hcf : 0 ≤ s.contributionFrequency)
    (st : LoopState) (p : ℕ) :
    stepPeriod powFn s o st p = stepPeriod powFn (withZeroContribution s) o st p := by
  have h1 := adjustedContribution_nonpos s o hc hcf p
  have h2 : ¬ 0 < adjustedContribution (withZeroContribution s) o p := by
    rw [adjustedContribution_zero]; norm_num
  have hb : updBalance powFn s o st.balance p =
      updBalance powFn (withZeroContribution s) o st.balance p := by
    simp only [updBalance, if_neg h1, if_neg h2]
    rfl
  have ht : updContrib s o st.totalContributions p =
      updContrib (withZeroContribution s) o st.totalContributions p := by
    simp only [updContrib, if_neg h1, if_neg h2]
  have e1 : updBalance powFn (withZeroContribution s) o st.balance p =
      updBalance powFn s o st.balance p := hb.symm
  have e2 : updContrib (withZeroContribution s) o st.totalContributions p =
      updContrib s o st.totalContributions p := ht.symm
  have e3 : yearAt (withZeroContribution s) p = yearAt s p := rfl
  have e4 : inflationRateOf (withZeroContribution s) = inflationRateOf s := rfl
  have e5 : fireNumberOf (withZeroContribution s) = fireNumberOf s := rfl
  by_cases hbd : isYearBoundary s p
  · have hbd' : isYearBoundary (withZeroContribution s) p := hbd
    simp [stepPeriod, hbd, hbd', e1, e2, e3, e4, e5]
  · have hbd' : ¬ isYearBoundary (withZeroContribution s) p := hbd
    simp [stepPeriod, hbd, hbd', e1, e2]

theorem runPeriods_zero_contribution (powFn : ℚ → ℚ → ℚ) (s : CompoundSettings)
    (o : ProjectionOptions) (hc : s.contribution ≤ 0) (hcf : 0 ≤ s.contributionFrequency)
    (n : ℕ) :
    runPeriods powFn s o n = runPeriods powFn (withZeroContribution s) o n := by
  induction n with
  | zero => rfl
  | succ n ih =>
    rw [runPeriods, runPeriods, ih, stepPeriod_zero_contribution powFn s o hc hcf]

theorem runPeriods_contrib_const (powFn : ℚ → ℚ → ℚ) (s : CompoundSettings)
    (o : ProjectionOptions) (hc : s.contribution ≤ 0) (hcf : 0 ≤ s.contributionFrequency)
    (n : ℕ) :
    (runPeriods powFn s o n).totalContributions = s.principal ∧
      ∀ row ∈ (runPeriods powFn s o n).table, row.contributions = s.principal := by
  induction n with
  | zero => simp [runPeriods, initState]
  | succ n ih =>
    have hupd : updContrib s o (runPeriods powFn s o n).totalContributions (n + 1) =
        s.principal := by
      rw [updContrib, if_neg (adjustedContribution_nonpos s o hc hcf (n + 1))]
      exact ih.1
    constructor
    · rw [runPeriods, stepPeriod_totalContributions, hupd]
    · intro row hrow
      rw [runPeriods, stepPeriod_table] at hrow
      rcases List.mem_append.mp hrow with h | h
      · exact ih.2 row h
      · by_cases hbd : isYearBoundary s (n + 1)
        · simp only [if_pos hbd, List.mem_singleton] at h
          subst h
          exact hupd
        · simp [hbd] at h

/-- **C9.** For every settings whose `contribution` is ≤ 0 (with the
`contributionFrequency` drawn from the data model's non-negative cadence
values), every options and every `Math.pow` oracle: the per-period
contribution is never applied, every table row's `contributions` field and
`totals.contributions` stay equal to the principal, and the projection is
exactly the one obtained with `contribution = 0`. -/
theorem buildProjection_nonpos_contribution (powFn : ℚ → ℚ → ℚ)
    (s : CompoundSettings) (o : ProjectionOptions)
    (hc : s.contribution ≤ 0) (hcf : 0 ≤ s.contributionFrequency) :
    (∀ row ∈ (buildProjection powFn s o).table, row.contributions = s.principal) ∧
      (buildProjection powFn s o).totals.contributions = s.principal ∧
      buildProjection powFn s o = buildProjection powFn (withZeroContribution s) o := by
  refine ⟨?_, ?_, ?_⟩
  · intro row hrow
    exact (runPeriods_contrib_const powFn s o hc hcf (totalPeriodsOf s)).2 row
      (by simpa [buildProjection] using hrow)
  · simp [buildProjection, (runPeriods_contrib_const powFn s o hc hcf (totalPeriodsOf s)).1]
  · unfold buildProjection
    rw [← runPeriods_zero_contribution powFn s o hc hcf]
    rfl

end CompoundCalc

namespace CompoundCalc

/-! ## C2: the defensive clamp is positivity-based, not `max(·, 1)` -/

/-- `s` with non-positive `compoundingFrequency`/`years` replaced by 1 (what
`clampPositive` actually does, applied up front). -/
def preClamped (s : CompoundSettings) : CompoundSettings :=
  { s with
    compoundingFrequency :=
      if 0 < s.compoundingFrequency then s.compoundingFrequency else 1
    years := if 0 < s.years then s.years else 1 }

theorem compoundingOf_preClamped (s : CompoundSettings) :
    compoundingOf (preClamped s) = compoundingOf s := by
  by_cases h : 0 < s.compoundingFrequency <;>
    simp [compoundingOf, clampPositive, preClamped, h]

theorem yearsOf_preClamped (s : CompoundSettings) :
    yearsOf (preClamped s) = yearsOf s := by
  by_cases h : 0 < s.years <;> simp [yearsOf, clampPositive, preClamped, h]

theorem totalPeriodsOf_preClamped (s : CompoundSettings) :
    totalPeriodsOf (preClamped s) = totalPeriodsOf s := by
  unfold totalPeriodsOf
  rw [compoundingOf_preClamped, yearsOf_preClamped]

theorem stepPeriod_preClamped (powFn : ℚ → ℚ → ℚ) (s : CompoundSettings)
    (o : ProjectionOptions) (st : LoopState) (p : ℕ) :
    stepPeriod powFn (preClamped s) o st p = stepPeriod powFn s o st p := by
  have hadj : ∀ q, adjustedContribution (preClamped s) o q = adjustedContribution s o q := by
    intro q
    unfold adjustedContribution contributionPerPeriodOf
    rw [compoundingOf_preClamped]
    rfl
  have hrate : periodicRateOf powFn (preClamped s) = periodicRateOf powFn s := by
    unfold periodicRateOf
    rw [compoundingOf_preClamped]
    rfl
  have e1 : updBalance powFn (preClamped s) o st.balance p =
      updBalance powFn s o st.balance p := by
    unfold updBalance
    rw [hadj p, hrate]
  have e2 : updContrib (preClamped s) o st.totalContributions p =
      updContrib s o st.totalContributions p := by
    unfold updContrib
    rw [hadj p]
  have e3 : yearAt (preClamped s) p = yearAt s p := by
    unfold yearAt
    rw [compoundingOf_preClamped]
  have e4 : inflationRateOf (preClamped s) = inflationRateOf s := rfl
  have e5 : fireNumberOf (preClamped s) = fireNumberOf s := rfl
  have hbdy : isYearBoundary (preClamped s) p ↔ isYearBoundary s p := by
    unfold isYearBoundary
    rw [compoundingOf_preClamped, totalPeriodsOf_preClamped]
  by_cases hbd : isYearBoundary s p
  · have hbd' : isYearBoundary (preClamped s) p := hbdy.mpr hbd
    simp [stepPeriod, hbd, hbd', e1, e2, e3, e4, e5]
  · have hbd' : ¬ isYearBoundary (preClamped s) p := fun h => hbd (hbdy.mp h)
    simp [stepPeriod, hbd, hbd', e1, e2]

theorem runPeriods_preClamped (powFn : ℚ → ℚ → ℚ) (s : CompoundSettings)
    (o : ProjectionOptions) (n : ℕ) :
    runPeriods powFn (preClamped s) o n = runPeriods powFn s o n := by
  induction n with
  | zero => rfl
  | succ n ih => rw [runPeriods, runPeriods, ih, stepPeriod_preClamped]

/-- The settings of the C2 counterexample: a fractional
`compoundingFrequency = 1/2` (all other fields as in the worked example). -/
def halfCompounding : CompoundSettings :=
  { exampleSettingsC5 with compoundingFrequency := 1 / 2 }

/-- **C2 (counterexample).** With `compoundingFrequency = 1/2`,
`buildProjection`'s working value is `1/2` — not `max(1/2, 1) = 1` as the
claim states: a positive value below 1 is kept, and the unclamped
half-per-year grid is observable in the output (a single table row labelled
year `2` instead of rows at years `1, 2`). -/
theorem buildProjection_clamp_counterexample :
    compoundingOf halfCompounding = 1 / 2 ∧
      max halfCompounding.compoundingFrequency 1 = 1 ∧
      compoundingOf halfCompounding ≠ max halfCompounding.compoundingFrequency 1 ∧
      (buildProjection jsPowInt halfCompounding {}).table.map (fun r => r.year) = [2] := by
  have h1 : compoundingOf halfCompounding = 1 / 2 := by
    norm_num [compoundingOf, clampPositive, halfCompounding, exampleSettingsC5]
  have h2 : max halfCompounding.compoundingFrequency 1 = 1 := by
    rw [max_eq_right]
    norm_num [halfCompounding, exampleSettingsC5]
  have htp : totalPeriodsOf halfCompounding = 1 := by
    norm_num [totalPeriodsOf, yearsOf, compoundingOf, clampPositive, halfCompounding,
      exampleSettingsC5, Int.ceil_eq_iff]
  refine ⟨h1, h2, by rw [h1, h2]; norm_num, ?_⟩
  norm_num [buildProjection, htp, runPeriods, stepPeriod, initState, updBalance, updContrib,
    adjustedContribution, contributionPerPeriodOf, compoundingOf, yearsOf, clampPositive,
    firstYearContributionFactorOf, normalizedContributionMonths, periodicRateOf,
    growthFactorOf, getNetAnnualRate, inflationRateOf, fireNumberOf, isYearBoundary, jsMod,
    totalPeriodsOf, yearAt, roundTo2, jsPowInt, halfCompounding, exampleSettingsC5,
    WITHDRAWAL_RATE, Int.ceil_eq_iff, Int.floor_eq_iff, round_eq, Int.toNat_ofNat]

/-- **C2 (amended).** `buildProjection`'s working values are
`compounding = compoundingFrequency` if it is positive and `1` otherwise,
and likewise for `years` — i.e. `clampPositive` keeps every positive value
(including fractional values such as `0.5`, which are *not* raised to 1)
and degrades non-positive values to the fallback `1` instead of failing;
projecting the raw settings equals projecting the pre-clamped settings. -/
theorem buildProjection_clamp_amended (s : CompoundSettings) :
    (0 < s.compoundingFrequency → compoundingOf s = s.compoundingFrequency) ∧
    (¬ 0 < s.compoundingFrequency → compoundingOf s = 1) ∧
    (0 < s.years → yearsOf s = s.years) ∧
    (¬ 0 < s.years → yearsOf s = 1) ∧
    ∀ (powFn : ℚ → ℚ → ℚ) (o : ProjectionOptions),
      buildProjection powFn s o = buildProjection powFn (preClamped s) o := by
  refine ⟨fun h => by simp [compoundingOf, clampPositive, h],
    fun h => by simp [compoundingOf, clampPositive, h],
    fun h => by simp [yearsOf, clampPositive, h],
    fun h => by simp [yearsOf, clampPositive, h], fun powFn o => ?_⟩
  unfold buildProjection
  rw [totalPeriodsOf_preClamped, runPeriods_preClamped, yearsOf_preClamped]
  rfl

/-- Closed instances of C2's amended clamp behaviour: a positive
`compoundingFrequency` (12) is kept, and the raw/pre-clamped projections
agree, via `buildProjection_clamp_amended` at concrete inputs. -/
theorem buildProjection_clamp_amended_witness :
    ((0:ℚ) < 12 ∧
      compoundingOf exampleSettingsC5 = exampleSettingsC5.compoundingFrequency) ∧
      (¬ (0:ℚ) < -3 ∧
        compoundingOf { exampleSettingsC5 with compoundingFrequency := -3 } = 1) ∧
      buildProjection jsPowInt exampleSettingsC5 {} =
        buildProjection jsPowInt (preClamped exampleSettingsC5) {} := by
  refine ⟨⟨by norm_num, ?_⟩, ⟨by norm_num, ?_⟩, ?_⟩
  · exact (buildProjection_clamp_amended exampleSettingsC5).1 (by norm_num [exampleSettingsC5])
  · exact ((buildProjection_clamp_amended
      { exampleSettingsC5 with compoundingFrequency := -3 }).2.1) (by norm_num [exampleSettingsC5])
  · exact (buildProjection_clamp_amended exampleSettingsC5).2.2.2.2 jsPowInt {}

end CompoundCalc

namespace CompoundCalc

/-- Settings already at the FIRE target at `t = 0`:
`annualExpenses = 400`, so `fireNumber = 10000 = principal`. -/
def fireSettings : CompoundSettings :=
  { exampleSettingsC5 with annualExpenses := 400 }

/-- Closed instance of C1: with `fireNumber = 10000 > 0` and
`principal = 10000 ≥ fireNumber`, `fireYear = 0`, via
`buildProjection_fireYear_least` at a concrete input. -/
theorem buildProjection_fireYear_least_witness :
    0 < fireNumberOf fireSettings ∧ fireNumberOf fireSettings ≤ fireSettings.principal ∧
      (buildProjection jsPowInt fireSettings {}).fireMetrics.fireYear = some 0 := by
  have h1 : 0 < fireNumberOf fireSettings := by
    norm_num [fireNumberOf, fireSettings, exampleSettingsC5]
  have h2 : fireNumberOf fireSettings ≤ fireSettings.principal := by
    norm_num [fireNumberOf, fireSettings, exampleSettingsC5]
  exact ⟨h1, h2, (buildProjection_fireYear_least jsPowInt fireSettings {} h1).2.2.1 h2⟩

/-- Closed instance of C4: the worked-example settings have
`annualExpenses = 0` and the projection never sets `fireYear`, via
`buildProjection_fireYear_none_of_zero_expenses` at a concrete input. -/
theorem buildProjection_fireYear_none_witness :
    exampleSettingsC5.annualExpenses = 0 ∧
      (buildProjection jsPowInt exampleSettingsC5 {}).fireMetrics.fireNumber = 0 ∧
      (buildProjection jsPowInt exampleSettingsC5 {}).fireMetrics.fireYear = none := by
  have h : exampleSettingsC5.annualExpenses = 0 := by norm_num [exampleSettingsC5]
  exact ⟨h,
    (buildProjection_fireYear_none_of_zero_expenses jsPowInt exampleSettingsC5 {} h).1,
    (buildProjection_fireYear_none_of_zero_expenses jsPowInt exampleSettingsC5 {} h).2.1⟩

/-- Settings with a negative `contribution` (all other fields as in the
worked example, `contributionFrequency = 12`). -/
def negContribution : CompoundSettings :=
  { exampleSettingsC5 with contribution := -100 }

/-- Closed instance of C9: with `contribution = -100 ≤ 0`,
`totals.contributions` stays at the principal and the projection equals the
zero-contribution one, via `buildProjection_nonpos_contribution` at a
concrete input. -/
theorem buildProjection_nonpos_contribution_witness :
    negContribution.contribution ≤ 0 ∧ 0 ≤ negContribution.contributionFrequency ∧
      (buildProjection jsPowInt negContribution {}).totals.contributions =
        negContribution.principal ∧
      buildProjection jsPowInt negContribution {} =
        buildProjection jsPowInt (withZeroContribution negContribution) {} := by
  have h1 : negContribution.contribution ≤ 0 := by
    norm_num [negContribution, exampleSettingsC5]
  have h2 : (0:ℚ) ≤ negContribution.contributionFrequency := by
    norm_num [negContribution, exampleSettingsC5]
  exact ⟨h1, h2,
    (buildProjection_nonpos_contribution jsPowInt negContribution {} h1 h2).2.1,
    (buildProjection_nonpos_contribution jsPowInt negContribution {} h1 h2).2.2⟩

end CompoundCalc

namespace CompoundCalc

/-! ## Date utilities (`dateUtils`): JS `Date` model and string helpers -/

/-- A JavaScript `Date` at local midnight, as the code uses it: the triple
`(getFullYear(), getMonth(), getDate())`.  `monthIndex` is 0-based (0–11
for every date the `Date` constructor produces). -/
structure JsDate where
  year : ℤ
  monthIndex : ℕ
  day : ℕ
deriving DecidableEq

/-- Proleptic-Gregorian leap-year rule used by JS dates. -/
def isLeapYear (y : ℤ) : Bool :=
  (y % 4 == 0 && y % 100 != 0) || y % 400 == 0

/-- Days in the month with 0-based index `m` of year `y`. -/
def daysInMonth (y : ℤ) (m : ℕ) : ℕ :=
  if m = 1 then (if isLeapYear y then 29 else 28)
  else if m = 3 ∨ m = 5 ∨ m = 8 ∨ m = 10 then 30
  else 31

/-- Day-offset normalisation of the `Date` constructor: starting from the
first of month `m` of year `y`, move `off` days (`off` may be negative by
one borrow or positive by a few carries for the inputs arising in this
code, all of which have `|off| ≤ 98`; the fuel of 24 months is ample). -/
def resolveDays : ℕ → ℤ → ℕ → ℤ → JsDate
  | 0, y, m, off => ⟨y, m, off.toNat + 1⟩
  | fuel + 1, y, m, off =>
    if off < 0 then
      if m = 0 then resolveDays fuel (y - 1) 11 (off + 31)
      else resolveDays fuel y (m - 1) (off + (daysInMonth y (m - 1) : ℤ))
    else if off < (daysInMonth y m : ℤ) then ⟨y, m, off.toNat + 1⟩
    else if m = 11 then resolveDays fuel (y + 1) 0 (off - 31)
    else resolveDays fuel y (m + 1) (off - (daysInMonth y m : ℤ))

/-- `new Date(year, monthIndex, day)` (ECMA-262): years 0–99 map to
1900–1999, the month index is normalised by floor-division into the year,
and day overflow/underflow rolls across months.  (The time-value NaN range
check is omitted: every call site here stays far inside the representable
range.) -/
def mkJsDate (year monthIndex day : ℤ) : JsDate :=
  let y0 := if 0 ≤ year ∧ year ≤ 99 then 1900 + year else year
  let ym := y0 + monthIndex.fdiv 12
  let mm := (monthIndex.emod 12).toNat
  resolveDays 24 ym mm (day - 1)

/-- `purchase.getTime() > today.getTime()` for local-midnight dates: the
time value is strictly increasing in the `(year, monthIndex, day)` triple,
so the comparison is the lexicographic one. -/
def dateLt (a b : JsDate) : Prop :=
  a.year < b.year ∨
    (a.year = b.year ∧
      (a.monthIndex < b.monthIndex ∨ (a.monthIndex = b.monthIndex ∧ a.day < b.day)))

instance (a b : JsDate) : Decidable (dateLt a b) := by
  unfold dateLt; infer_instance

/-- Little-endian base-10 digits with structural fuel (`fuel ≥ n`
suffices); kernel-computable counterpart of `Nat.digits 10`. -/
def natDigitsRev : ℕ → ℕ → List ℕ
  | 0, _ => []
  | _ + 1, 0 => []
  | fuel + 1, n => n % 10 :: natDigitsRev fuel (n / 10)

/-- The character of a decimal digit. -/
def charOfDigit (d : ℕ) : Char := Char.ofNat (48 + d)

/-- JS number-to-string conversion for a non-negative integer. -/
def natToString (n : ℕ) : String :=
  if n = 0 then "0" else ((natDigitsRev n n).reverse.map charOfDigit).asString

/-- JS number-to-string conversion for an integer (template literals such
as `` `${payoutYear}` ``). -/
def intToString (i : ℤ) : String :=
  if i < 0 then "-" ++ natToString i.natAbs else natToString i.toNat

/-- `String(n).padStart(2, '0')`. -/
def pad2 (n : ℕ) : String :=
  if n < 10 then "0" ++ natToString n else natToString n

/-- `toIsoDateString(date)`: year unpadded, month and day padded to two
digits. -/
def toIsoDateString (d : JsDate) : String :=
  intToString d.year ++ "-" ++ pad2 (d.monthIndex + 1) ++ "-" ++ pad2 d.day

/-- The numeric value of a digit character. -/
def digitVal (c : Char) : ℕ := c.toNat - 48

/-- `ISO_DATE_PATTERN = /^\d{4}-\d{2}-\d{2}$/`. -/
def isoShape (s : String) : Bool :=
  match s.data with
  | [y1, y2, y3, y4, h1, m1, m2, h2, d1, d2] =>
    y1.isDigit && y2.isDigit && y3.isDigit && y4.isDigit && h1 == '-' &&
      m1.isDigit && m2.isDigit && h2 == '-' && d1.isDigit && d2.isDigit
  | _ => false

/-- `SLASH_DATE_PATTERN = /^\d{2}\/\d{2}\/\d{4}$/`. -/
def slashShape (s : String) : Bool :=
  match s.data with
  | [d1, d2, s1, m1, m2, s2, y1, y2, y3, y4] =>
    d1.isDigit && d2.isDigit && s1 == '/' && m1.isDigit && m2.isDigit && s2 == '/' &&
      y1.isDigit && y2.isDigit && y3.isDigit && y4.isDigit
  | _ => false

/-- `value.split('/').map(Number)` for a string matching the slash
pattern: the `(day, month, year)` numeric components. -/
def slashParts (s : String) : ℕ × ℕ × ℕ :=
  match s.data with
  | [d1, d2, _, m1, m2, _, y1, y2, y3, y4] =>
    (10 * digitVal d1 + digitVal d2,
     10 * digitVal m1 + digitVal m2,
     1000 * digitVal y1 + 100 * digitVal y2 + 10 * digitVal y3 + digitVal y4)
  | _ => (0, 0, 0)

/-- `value.split('-').map(Number)` for a string matching the ISO pattern:
the `(year, month, day)` numeric components. -/
def isoParts (s : String) : ℕ × ℕ × ℕ :=
  match s.data with
  | [y1, y2, y3, y4, _, m1, m2, _, d1, d2] =>
    (1000 * digitVal y1 + 100 * digitVal y2 + 10 * digitVal y3 + digitVal y4,
     10 * digitVal m1 + digitVal m2,
     10 * digitVal d1 + digitVal d2)
  | _ => (0, 0, 0)

/-- `buildIsoFromParts(year, month, day)`: reject falsy (zero) components,
reconstruct with the `Date` constructor, and require the
year/month/day round-trip to be exact.  (The `isNaN(getTime())` guard is
omitted: 4-digit years cannot overflow the time range.) -/
def buildIsoFromParts (year month day : ℕ) : String :=
  if year = 0 ∨ month = 0 ∨ day = 0 then ""
  else
    let parsed := mkJsDate year ((month : ℤ) - 1) day
    if parsed.year = (year : ℤ) ∧ parsed.monthIndex = month - 1 ∧ parsed.day = day then
      toIsoDateString parsed
    else ""

/-- `normalizeDateValue(value)`.  The trailing `new Date(value)` generic
parse of a non-empty, non-ISO, non-slash-valid string is
implementation-defined (ECMA-262) and supplied as the oracle `fallback`
(`none` = invalid date). -/
def normalizeDateValue (fallback : String → Option JsDate) (value : String) : String :=
  if value = "" then ""
  else if value.data.contains '/' && !slashShape value then ""
  else if isoShape value then value
  else if slashShape value then
    let p := slashParts value
    let isoFromSlash := buildIsoFromParts p.2.2 p.2.1 p.1
    if isoFromSlash ≠ "" then isoFromSlash
    else
      match fallback value with
      | none => ""
      | some d => toIsoDateString d
  else
    match fallback value with
    | none => ""
    | some d => toIsoDateString d

/-- `parseNormalizedDate(value)`: only ISO-shaped strings parse, via the
component `Date` constructor.  (The `isNaN` guard is omitted: 4-digit
years cannot overflow the time range.) -/
def parseNormalizedDate (value : String) : Option JsDate :=
  if value = "" ∨ ¬ isoShape value then none
  else
    let p := isoParts value
    some (mkJsDate p.1 ((p.2.1 : ℤ) - 1) p.2.2)

/-- `formatDayMonthYear(value, '/')`. -/
def formatDayMonthYear (d : JsDate) : String :=
  pad2 d.day ++ "/" ++ pad2 (d.monthIndex + 1) ++ "/" ++ intToString d.year

/-- `formatDateForInput(value)`. -/
def formatDateForInput (fallback : String → Option JsDate) (value : String) : String :=
  match parseNormalizedDate (normalizeDateValue fallback value) with
  | none => ""
  | some d => formatDayMonthYear d

/-- `isPurchaseDateInFuture(purchaseDate, referenceDate)`; the
time-stripped `today` is rebuilt from the reference's components with the
`Date` constructor. -/
def isPurchaseDateInFuture (fallback : String → Option JsDate)
    (purchaseDate : String) (referenceDate : JsDate) : Bool :=
  match parseNormalizedDate (normalizeDateValue fallback purchaseDate) with
  | none => false
  | some purchase =>
    let today := mkJsDate referenceDate.year referenceDate.monthIndex referenceDate.day
    decide (dateLt today purchase)

/-- `getWholeMonthsUntilYearEnd(purchaseDate, referenceDate)`. -/
def getWholeMonthsUntilYearEnd (fallback : String → Option JsDate)
    (purchaseDate : String) (referenceDate : JsDate) : ℤ :=
  let today := mkJsDate referenceDate.year referenceDate.monthIndex referenceDate.day
  if isPurchaseDateInFuture fallback purchaseDate referenceDate then 0
  else
    let yearEnd := mkJsDate today.year 11 31
    if ¬ dateLt today yearEnd then 0
    else
      let months : ℤ :=
        (yearEnd.year - today.year) * 12 + ((yearEnd.monthIndex : ℤ) - (today.monthIndex : ℤ))
      let months2 := if (yearEnd.day : ℤ) < (today.day : ℤ) then months - 1 else months
      max months2 0

/-- `getWithdrawalDate(yearValue)` from the scenario component
(`currentYear = new Date().getFullYear()` is a parameter here): returns
the pair `(iso, label)`. -/
def getWithdrawalDate (fallback : String → Option JsDate) (currentYear : ℤ)
    (yearValue : ℚ) : String × String :=
  let payoutYear := max (currentYear - 1 + ⌈yearValue⌉) currentYear
  let iso := intToString payoutYear ++ "-12-31"
  let label := formatDateForInput fallback iso
  (iso, if label ≠ "" then label else "31/12/" ++ intToString payoutYear)

end CompoundCalc

namespace CompoundCalc

/-! ## C10: months remaining until year end -/

theorem resolveDays_base (fuel : ℕ) (y : ℤ) (m : ℕ) (off : ℤ) (h0 : 0 ≤ off)
    (h1 : off < (daysInMonth y m : ℤ)) :
    resolveDays (fuel + 1) y m off = ⟨y, m, off.toNat + 1⟩ := by
  rw [resolveDays, if_neg (not_lt.mpr h0), if_pos h1]

theorem resolveDays_carry (fuel : ℕ) (y : ℤ) (m : ℕ) (off : ℤ) (h0 : 0 ≤ off)
    (h1 : (daysInMonth y m : ℤ) ≤ off) (hm : m ≠ 11) :
    resolveDays (fuel + 1) y m off = resolveDays fuel y (m + 1) (off - daysInMonth y m) := by
  rw [resolveDays, if_neg (not_lt.mpr h0), if_neg (not_lt.mpr h1), if_neg hm]

theorem daysInMonth_dec (y : ℤ) : daysInMonth y 11 = 31 := by norm_num [daysInMonth]

theorem daysInMonth_le (y : ℤ) (m : ℕ) : daysInMonth y m ≤ 31 := by
  unfold daysInMonth
  split
  · split <;> norm_num
  · split <;> norm_num

theorem daysInMonth_ge (y : ℤ) (m : ℕ) : 28 ≤ daysInMonth y m := by
  unfold daysInMonth
  split
  · split <;> norm_num
  · split <;> norm_num

theorem small_fdiv (m : ℕ) (h : m ≤ 11) : (m : ℤ).fdiv 12 = 0 := by
  interval_cases m <;> decide

theorem small_emod (m : ℕ) (h : m ≤ 11) : ((m : ℤ).emod 12).toNat = m := by
  interval_cases m <;> decide

theorem mkJsDate_dec31 (y : ℤ) (h : ¬ (0 ≤ y ∧ y ≤ 99)) : mkJsDate y 11 31 = ⟨y, 11, 31⟩ := by
  unfold mkJsDate
  rw [if_neg h]
  have e1 : Int.fdiv 11 12 = 0 := by decide
  have e2 : ((11:ℤ).emod 12).toNat = 11 := by decide
  have e3 : (31 - 1 : ℤ) = 30 := by decide
  simp only [e1, e2, e3, add_zero]
  rw [show (24:ℕ) = 23 + 1 from rfl,
    resolveDays_base 23 y 11 30 (by decide) (by rw [daysInMonth_dec]; decide)]
  norm_num
  decide

/-- `quirkYear y`: the year actually stored by `new Date(y, m, d)` —
ECMA-262's 0–99 ↦ 1900–1999 mapping. -/
def quirkYear (y : ℤ) : ℤ := if 0 ≤ y ∧ y ≤ 99 then 1900 + y else y

theorem quirkYear_not_small (y : ℤ) : ¬ (0 ≤ quirkYear y ∧ quirkYear y ≤ 99) := by
  unfold quirkYear
  split
  · rename_i hy
    intro hc
    omega
  · rename_i hy
    exact hy

/-- The components of a real JS `Date` always form a valid civil date;
this predicate states that for a `JsDate` modelling one. -/
def ValidJsDate (d : JsDate) : Prop :=
  d.monthIndex ≤ 11 ∧ 1 ≤ d.day ∧ d.day ≤ daysInMonth d.year d.monthIndex

instance (d : JsDate) : Decidable (ValidJsDate d) := by
  unfold ValidJsDate; infer_instance

/-- `new Date(ref.getFullYear(), ref.getMonth(), ref.getDate())` — the
time-stripped "today" rebuilt from a reference date's components. -/
def todayOf (ref : JsDate) : JsDate := mkJsDate ref.year ref.monthIndex ref.day

theorem todayOf_char (ref : JsDate) (h : ValidJsDate ref) :
    (ref.day ≤ daysInMonth (quirkYear ref.year) ref.monthIndex →
      todayOf ref = ⟨quirkYear ref.year, ref.monthIndex, ref.day⟩) ∧
    (daysInMonth (quirkYear ref.year) ref.monthIndex < ref.day →
      todayOf ref =
        ⟨quirkYear ref.year, ref.monthIndex + 1,
          ref.day - daysInMonth (quirkYear ref.year) ref.monthIndex⟩ ∧
      ref.monthIndex ≤ 10) := by
  obtain ⟨hm, hd1, hd2⟩ := h
  have efd : (ref.monthIndex : ℤ).fdiv 12 = 0 := small_fdiv _ hm
  have eem : ((ref.monthIndex : ℤ).emod 12).toNat = ref.monthIndex := small_emod _ hm
  constructor
  · intro hle
    unfold todayOf mkJsDate
    simp only [efd, eem, add_zero]
    rw [show quirkYear ref.year = if 0 ≤ ref.year ∧ ref.year ≤ 99 then 1900 + ref.year
      else ref.year from rfl] at hle
    rw [show (24:ℕ) = 23 + 1 from rfl, resolveDays_base 23 _ _ _ (by omega) (by omega)]
    congr 1
    omega
  · intro hlt
    unfold todayOf mkJsDate
    simp only [efd, eem, add_zero]
    have hm10 : ref.monthIndex ≤ 10 := by
      by_contra hc
      have h11 : ref.monthIndex = 11 := by omega
      rw [h11] at hlt hd2
      rw [daysInMonth_dec] at hlt
      rw [daysInMonth_dec] at hd2
      omega
    rw [show quirkYear ref.year = if 0 ≤ ref.year ∧ ref.year ≤ 99 then 1900 + ref.year
      else ref.year from rfl] at hlt ⊢
    set yq := if 0 ≤ ref.year ∧ ref.year ≤ 99 then 1900 + ref.year else ref.year with hyq
    refine ⟨?_, hm10⟩
    rw [show (24:ℕ) = 23 + 1 from rfl, resolveDays_carry 23 _ _ _ (by omega) (by omega)
      (by omega)]
    have hcap : (ref.day : ℤ) - 1 - daysInMonth yq ref.monthIndex <
        daysInMonth yq (ref.monthIndex + 1) := by
      have h1 := daysInMonth_le ref.year ref.monthIndex
      have h2 := daysInMonth_ge yq ref.monthIndex
      have h3 := daysInMonth_ge yq (ref.monthIndex + 1)
      omega
    rw [show (23:ℕ) = 22 + 1 from rfl, resolveDays_base 22 _ _ _ (by omega) hcap]
    congr 1
    have h2 := daysInMonth_ge yq ref.monthIndex
    omega

end CompoundCalc

namespace CompoundCalc

/-! ## C10: main theorem, counterexample and witness -/

theorem months_calc (fallback : String → Option JsDate) (purchase : String) (ref : JsDate)
    (hfut : isPurchaseDateInFuture fallback purchase ref = false)
    (hm : (todayOf ref).monthIndex ≤ 11) (hd : (todayOf ref).day ≤ 31)
    (hy : ¬ (0 ≤ (todayOf ref).year ∧ (todayOf ref).year ≤ 99)) :
    getWholeMonthsUntilYearEnd fallback purchase ref = 11 - ((todayOf ref).monthIndex : ℤ) := by
  have hlt_iff : dateLt (todayOf ref) ⟨(todayOf ref).year, 11, 31⟩ ↔
      ((todayOf ref).monthIndex < 11 ∨
        ((todayOf ref).monthIndex = 11 ∧ (todayOf ref).day < 31)) := by
    unfold dateLt
    dsimp only
    constructor
    · rintro (h | ⟨-, h⟩)
      · omega
      · exact h
    · intro h
      exact Or.inr ⟨rfl, h⟩
  unfold getWholeMonthsUntilYearEnd
  have htt : mkJsDate ref.year ref.monthIndex ref.day = todayOf ref := rfl
  rw [htt, hfut]
  simp only [Bool.false_eq_true, if_false]
  rw [mkJsDate_dec31 _ hy]
  by_cases hend : (todayOf ref).monthIndex = 11 ∧ (todayOf ref).day = 31
  · rw [if_pos (by rw [hlt_iff]; omega)]
    omega
  · rw [if_neg (not_not.mpr (hlt_iff.mpr (by omega)))]
    dsimp only
    rw [if_neg (by omega)]
    omega

/-- **C10 (amended).** For every reference date and every purchase date not
in the future, `getWholeMonthsUntilYearEnd` returns `11 −` the month index
of the *reconstructed* `today = new Date(ref.getFullYear(), ref.getMonth(),
ref.getDate())`; the result always lies in `[0, 11]` and the
subtract-one-extra-month branch (`yearEnd.getDate() < today.getDate()`)
can never fire since December 31's day 31 is maximal.  When the
reconstruction preserves the date — every case except a February 29
reference in year 0, which ECMA's 0–99 ↦ 1900 year mapping rolls to
March 1, 1900 — this is exactly `11 − ref.getMonth()`.  (The claim's
parseability hypothesis is not needed: an unparseable purchase date is
simply "not in the future".) -/
theorem getWholeMonthsUntilYearEnd_months (fallback : String → Option JsDate)
    (purchase : String) (ref : JsDate) (href : ValidJsDate ref)
    (hfut : isPurchaseDateInFuture fallback purchase ref = false) :
    getWholeMonthsUntilYearEnd fallback purchase ref = 11 - ((todayOf ref).monthIndex : ℤ) ∧
    (todayOf ref).monthIndex ≤ 11 ∧
    0 ≤ getWholeMonthsUntilYearEnd fallback purchase ref ∧
    getWholeMonthsUntilYearEnd fallback purchase ref ≤ 11 ∧
    ¬ ((mkJsDate (todayOf ref).year 11 31).day < (todayOf ref).day) ∧
    (ref.day ≤ daysInMonth (quirkYear ref.year) ref.monthIndex →
      getWholeMonthsUntilYearEnd fallback purchase ref = 11 - (ref.monthIndex : ℤ)) := by
  have hchar := todayOf_char ref href
  obtain ⟨hm0, hd1, hd2⟩ := href
  have hfacts : (todayOf ref).year = quirkYear ref.year ∧ (todayOf ref).monthIndex ≤ 11 ∧
      1 ≤ (todayOf ref).day ∧ (todayOf ref).day ≤ 31 := by
    by_cases hcase : ref.day ≤ daysInMonth (quirkYear ref.year) ref.monthIndex
    · rw [hchar.1 hcase]
      have := daysInMonth_le (quirkYear ref.year) ref.monthIndex
      exact ⟨rfl, hm0, hd1, by dsimp only; omega⟩
    · have hlt := lt_of_not_le hcase
      obtain ⟨heq, hm10⟩ := hchar.2 hlt
      rw [heq]
      have h28 := daysInMonth_ge (quirkYear ref.year) ref.monthIndex
      have h31 := daysInMonth_le ref.year ref.monthIndex
      exact ⟨rfl, by dsimp only; omega, by dsimp only; omega, by dsimp only; omega⟩
  have hy : ¬ (0 ≤ (todayOf ref).year ∧ (todayOf ref).year ≤ 99) := by
    rw [hfacts.1]
    exact quirkYear_not_small _
  have h1 := months_calc fallback purchase ref hfut hfacts.2.1 hfacts.2.2.2 hy
  have hm11 := hfacts.2.1
  have hday31 : (mkJsDate (todayOf ref).year 11 31).day = 31 := by
    rw [mkJsDate_dec31 _ hy]
  refine ⟨h1, hm11, by omega, by omega, by rw [hday31]; have := hfacts.2.2.2; omega, ?_⟩
  intro hcase
  rw [hchar.1 hcase] at h1
  simpa using h1

/-- **C10 (counterexample).** The reference date February 29 of year 0 (a
valid JS date, year 0 being a leap year) with an empty (hence non-future)
purchase date yields 9, not `11 − 1 = 10`: the component reconstruction
maps year 0 to 1900, a non-leap year, rolling the date to March 1. -/
theorem getWholeMonthsUntilYearEnd_counterexample :
    ValidJsDate ⟨0, 1, 29⟩ ∧
      isPurchaseDateInFuture (fun _ => none) "" ⟨0, 1, 29⟩ = false ∧
      getWholeMonthsUntilYearEnd (fun _ => none) "" ⟨0, 1, 29⟩ = 9 ∧
      (9 : ℤ) ≠ 11 - ((1 : ℕ) : ℤ) := by
  refine ⟨by decide, by decide, by decide, by decide⟩

/-- Closed instance of C10's amended theorem: reference 2024-05-15 with
past purchase date 20/01/2024 gives `11 − 4 = 7`, via
`getWholeMonthsUntilYearEnd_months` at a concrete input. -/
theorem getWholeMonthsUntilYearEnd_months_witness :
    ValidJsDate ⟨2024, 4, 15⟩ ∧
      isPurchaseDateInFuture (fun _ => none) "20/01/2024" ⟨2024, 4, 15⟩ = false ∧
      getWholeMonthsUntilYearEnd (fun _ => none) "20/01/2024" ⟨2024, 4, 15⟩ = 7 := by
  have h1 : ValidJsDate ⟨2024, 4, 15⟩ := by decide
  have h2 : isPurchaseDateInFuture (fun _ => none) "20/01/2024" ⟨2024, 4, 15⟩ = false := by
    decide
  refine ⟨h1, h2, ?_⟩
  have h3 := (getWholeMonthsUntilYearEnd_months (fun _ => none) "20/01/2024"
    ⟨2024, 4, 15⟩ h1 h2).2.2.2.2.2
  rw [h3 (by decide)]
  decide

end CompoundCalc

namespace CompoundCalc

/-! ## C6: `normalizeDateValue` and the invalid-date sentinel -/

theorem slashShape_elim (value : String) (h : slashShape value = true) :
    ∃ c1 c2 c4 c5 c7 c8 c9 c10 : Char,
      value.data = [c1, c2, '/', c4, c5, '/', c7, c8, c9, c10] ∧
      c1.isDigit ∧ c2.isDigit ∧ c4.isDigit ∧ c5.isDigit ∧
      c7.isDigit ∧ c8.isDigit ∧ c9.isDigit ∧ c10.isDigit := by
  unfold slashShape at h
  split at h
  · rename_i d1 d2 s1 m1 m2 s2 y1 y2 y3 y4 heq
    simp only [Bool.and_eq_true, beq_iff_eq] at h
    obtain ⟨⟨⟨⟨⟨⟨⟨⟨⟨h1, h2⟩, h3⟩, h4⟩, h5⟩, h6⟩, h7⟩, h8⟩, h9⟩, h10⟩ := h
    subst h3
    subst h6
    exact ⟨d1, d2, m1, m2, y1, y2, y3, y4, heq, h1, h2, h4, h5, h7, h8, h9, h10⟩
  · exact absurd h (by simp)

theorem slashShape_contains (value : String) (h : slashShape value = true) :
    value.data.contains '/' = true := by
  obtain ⟨c1, c2, c4, c5, c7, c8, c9, c10, heq, -⟩ := slashShape_elim value h
  rw [heq]
  exact List.elem_eq_true_of_mem (by simp)

theorem slashShape_ne_empty (value : String) (h : slashShape value = true) :
    value ≠ "" := by
  obtain ⟨c1, c2, c4, c5, c7, c8, c9, c10, heq, -⟩ := slashShape_elim value h
  intro hc
  rw [hc] at heq
  simp at heq

theorem slashShape_not_iso (value : String) (h : slashShape value = true) :
    isoShape value = false := by
  obtain ⟨c1, c2, c4, c5, c7, c8, c9, c10, heq, -⟩ := slashShape_elim value h
  unfold isoShape
  rw [heq]
  have hslash : ('/' : Char).isDigit = false := by decide
  simp [hslash]

theorem buildIsoFromParts_shape (year month day : ℕ)
    (h : buildIsoFromParts year month day ≠ "") :
    ∃ d : JsDate, buildIsoFromParts year month day = toIsoDateString d := by
  unfold buildIsoFromParts at h ⊢
  by_cases hf : year = 0 ∨ month = 0 ∨ day = 0
  · rw [if_pos hf] at h
    exact absurd rfl h
  · rw [if_neg hf] at h ⊢
    dsimp only at h ⊢
    split at h
    · rename_i hrt
      rw [if_pos hrt]
      exact ⟨_, rfl⟩
    · exact absurd rfl h

/-- **C6 (amended).** For every input string and every behaviour of the
implementation-defined generic `new Date(string)` fallback parser:
a string containing `/` that does not match the `DD/MM/YYYY` shape yields
the empty sentinel; a `DD/MM/YYYY`-shaped string whose day/month/year
combination fails the reconstruct-and-round-trip check yields the sentinel
*provided the generic fallback also rejects it* (the code falls through to
`new Date(value)` rather than returning directly); a round-tripping slash
date returns `buildIsoFromParts`'s output; and every result is the
sentinel, an ISO-shaped input echoed back, or `toIsoDateString` of some
date — whose year is *unpadded*, so not always canonical `YYYY-MM-DD`.
The function is total (never throws) by construction. -/
theorem normalizeDateValue_invalid_sentinel (fallback : String → Option JsDate)
    (value : String) :
    (value.data.contains '/' = true → slashShape value = false →
      normalizeDateValue fallback value = "") ∧
    (slashShape value = true →
      buildIsoFromParts (slashParts value).2.2 (slashParts value).2.1 (slashParts value).1 =
        "" →
      fallback value = none → normalizeDateValue fallback value = "") ∧
    (slashShape value = true →
      buildIsoFromParts (slashParts value).2.2 (slashParts value).2.1 (slashParts value).1 ≠
        "" →
      normalizeDateValue fallback value =
        buildIsoFromParts (slashParts value).2.2 (slashParts value).2.1 (slashParts value).1) ∧
    (normalizeDateValue fallback value = "" ∨
      (normalizeDateValue fallback value = value ∧ isoShape value = true) ∨
      ∃ d : JsDate, normalizeDateValue fallback value = toIsoDateString d) := by
  refine ⟨?_, ?_, ?_, ?_⟩
  · intro hc hns
    unfold normalizeDateValue
    by_cases h1 : value = ""
    · rw [if_pos h1]
    · rw [if_neg h1, if_pos (by rw [hc, hns]; rfl)]
  · intro hs hb hf
    have h1 := slashShape_ne_empty value hs
    unfold normalizeDateValue
    rw [if_neg h1, if_neg (by rw [hs]; simp), if_neg (by rw [slashShape_not_iso value hs]; simp),
      if_pos hs]
    dsimp only
    rw [if_neg (by rw [hb]; simp), hf]
  · intro hs hb
    have h1 := slashShape_ne_empty value hs
    unfold normalizeDateValue
    rw [if_neg h1, if_neg (by rw [hs]; simp), if_neg (by rw [slashShape_not_iso value hs]; simp),
      if_pos hs]
    dsimp only
    rw [if_pos hb]
  · unfold normalizeDateValue
    by_cases h1 : value = ""
    · rw [if_pos h1]
      exact Or.inl rfl
    · rw [if_neg h1]
      by_cases h2 : (value.data.contains '/' && !slashShape value) = true
      · rw [if_pos h2]
        exact Or.inl rfl
      · rw [if_neg h2]
        by_cases h3 : isoShape value = true
        · rw [if_pos h3]
          exact Or.inr (Or.inl ⟨rfl, h3⟩)
        · rw [if_neg h3]
          by_cases h4 : slashShape value = true
          · rw [if_pos h4]
            dsimp only
            by_cases h5 : buildIsoFromParts (slashParts value).2.2 (slashParts value).2.1
                (slashParts value).1 ≠ ""
            · rw [if_pos h5]
              exact Or.inr (Or.inr (buildIsoFromParts_shape _ _ _ h5))
            · rw [if_neg h5]
              cases hf : fallback value with
              | none => exact Or.inl rfl
              | some d => exact Or.inr (Or.inr ⟨d, rfl⟩)
          · rw [if_neg h4]
            cases hf : fallback value with
            | none => exact Or.inl rfl
            | some d => exact Or.inr (Or.inr ⟨d, rfl⟩)

/-- **C6 (counterexample).** The calendar-valid `DD/MM/YYYY` string
`"01/01/0500"` normalizes to `"500-01-01"` — a three-digit year, neither a
canonical ISO `YYYY-MM-DD` date nor the empty sentinel, refuting the
claim's output-shape assertion. -/
theorem normalizeDateValue_counterexample :
    normalizeDateValue (fun _ => none) "01/01/0500" = "500-01-01" ∧
      isoShape "500-01-01" = false ∧ ("500-01-01" : String) ≠ "" := by
  refine ⟨by decide, by decide, by decide⟩

/-- Closed instances of C6's amended theorem: a malformed slash string, a
calendar-invalid date (30 February) with a rejecting fallback, and a valid
slash date, via `normalizeDateValue_invalid_sentinel` at concrete
inputs. -/
theorem normalizeDateValue_invalid_sentinel_witness :
    ((("1/1/2024" : String).data.contains '/' = true ∧ slashShape "1/1/2024" = false) ∧
      normalizeDateValue (fun _ => none) "1/1/2024" = "") ∧
    ((slashShape "30/02/2024" = true ∧
        buildIsoFromParts (slashParts "30/02/2024").2.2 (slashParts "30/02/2024").2.1
          (slashParts "30/02/2024").1 = "") ∧
      normalizeDateValue (fun _ => none) "30/02/2024" = "") ∧
    normalizeDateValue (fun _ => none) "15/05/2024" = "2024-05-15" := by
  refine ⟨⟨⟨by decide, by decide⟩, ?_⟩, ⟨⟨by decide, by decide⟩, ?_⟩, ?_⟩
  · exact (normalizeDateValue_invalid_sentinel (fun _ => none) "1/1/2024").1
      (by decide) (by decide)
  · exact (normalizeDateValue_invalid_sentinel (fun _ => none) "30/02/2024").2.1
      (by decide) (by decide) rfl
  · have h := (normalizeDateValue_invalid_sentinel (fun _ => none) "15/05/2024").2.2.1
      (by decide) (by decide)
    rw [h]
    decide

end CompoundCalc

namespace CompoundCalc

/-! ## C7: the withdrawal-date resolver -/

theorem natDigitsRev_eq (fuel n : ℕ) (h : n ≤ fuel) :
    natDigitsRev fuel n = Nat.digits 10 n := by
  induction fuel generalizing n with
  | zero =>
    have hn : n = 0 := by omega
    subst hn
    simp [natDigitsRev]
  | succ f ih =>
    cases n with
    | zero => simp [natDigitsRev]
    | succ n' =>
      rw [natDigitsRev, ih _ (by have := Nat.div_lt_self (Nat.succ_pos n') (by norm_num : 1 < 10); omega),
        Nat.digits_def' (by norm_num : 1 < 10) (Nat.succ_pos n')]
      omega

theorem four_digits (n : ℕ) (h1 : 1000 ≤ n) (h2 : n ≤ 9999) :
    ∃ a b c d : ℕ, a < 10 ∧ b < 10 ∧ c < 10 ∧ d < 10 ∧
      Nat.digits 10 n = [d, c, b, a] ∧ n = 1000 * a + 100 * b + 10 * c + d := by
  have hlen : (Nat.digits 10 n).length = 4 := by
    rw [Nat.digits_len 10 n (by norm_num) (by omega)]
    have : Nat.log 10 n = 3 := Nat.log_eq_of_pow_le_of_lt_pow (by norm_num; omega) (by norm_num; omega)
    omega
  rcases hd : Nat.digits 10 n with _ | ⟨d, _ | ⟨c, _ | ⟨b, _ | ⟨a, _ | ⟨e, rest⟩⟩⟩⟩⟩ <;>
    rw [hd] at hlen <;> simp at hlen
  have hofd := Nat.ofDigits_digits 10 n
  rw [hd] at hofd
  simp [Nat.ofDigits_cons, Nat.ofDigits_nil] at hofd
  have hda : a < 10 := Nat.digits_lt_base (by norm_num) (by rw [hd]; simp)
  have hdb : b < 10 := Nat.digits_lt_base (by norm_num) (by rw [hd]; simp)
  have hdc : c < 10 := Nat.digits_lt_base (by norm_num) (by rw [hd]; simp)
  have hdd : d < 10 := Nat.digits_lt_base (by norm_num) (by rw [hd]; simp)
  exact ⟨a, b, c, d, hda, hdb, hdc, hdd, rfl, by omega⟩

theorem natToString_four (n : ℕ) (h1 : 1000 ≤ n) (h2 : n ≤ 9999) :
    ∃ a b c d : ℕ, a < 10 ∧ b < 10 ∧ c < 10 ∧ d < 10 ∧
      n = 1000 * a + 100 * b + 10 * c + d ∧
      (natToString n).data = [charOfDigit a, charOfDigit b, charOfDigit c, charOfDigit d] := by
  obtain ⟨a, b, c, d, ha, hb, hc, hd, hdig, hval⟩ := four_digits n h1 h2
  refine ⟨a, b, c, d, ha, hb, hc, hd, hval, ?_⟩
  unfold natToString
  rw [if_neg (by omega), natDigitsRev_eq n n le_rfl, hdig]
  rfl


theorem charOfDigit_facts (d : ℕ) (h : d < 10) :
    (charOfDigit d).isDigit = true ∧ digitVal (charOfDigit d) = d ∧
      (('/' : Char) == charOfDigit d) = false ∧ ((charOfDigit d) == '/') = false ∧
      ((charOfDigit d) == '-') = false := by
  interval_cases d <;> exact ⟨by decide, by decide, by decide, by decide, by decide⟩

theorem intToString_four (py : ℤ) (h1 : 1000 ≤ py) (h2 : py ≤ 9999) :
    ∃ a b c d : ℕ, a < 10 ∧ b < 10 ∧ c < 10 ∧ d < 10 ∧
      py = 1000 * a + 100 * b + 10 * c + d ∧
      (intToString py).data =
        [charOfDigit a, charOfDigit b, charOfDigit c, charOfDigit d] := by
  obtain ⟨a, b, c, d, ha, hb, hc, hd, hval, hdata⟩ :=
    natToString_four py.toNat (by omega) (by omega)
  refine ⟨a, b, c, d, ha, hb, hc, hd, by omega, ?_⟩
  unfold intToString
  rw [if_neg (by omega)]
  exact hdata

theorem formatDateForInput_payout (fallback : String → Option JsDate) (py : ℤ)
    (h1 : 1000 ≤ py) (h2 : py ≤ 9999) :
    formatDateForInput fallback (intToString py ++ "-12-31") =
      "31/12/" ++ intToString py := by
  obtain ⟨a, b, c, d, ha, hb, hc, hd, hval, hdata⟩ := intToString_four py h1 h2
  have hfa := charOfDigit_facts a ha
  have hfb := charOfDigit_facts b hb
  have hfc := charOfDigit_facts c hc
  have hfd := charOfDigit_facts d hd
  have hsdata : (intToString py ++ "-12-31").data =
      [charOfDigit a, charOfDigit b, charOfDigit c, charOfDigit d,
        '-', '1', '2', '-', '3', '1'] := by
    show (intToString py).data ++ ("-12-31" : String).data = _
    rw [hdata]
    rfl
  have hnz : (intToString py ++ "-12-31") ≠ "" := by
    intro hcon
    rw [hcon] at hsdata
    simp at hsdata
  have hiso : isoShape (intToString py ++ "-12-31") = true := by
    unfold isoShape
    rw [hsdata]
    simp [hfa.1, hfb.1, hfc.1, hfd.1]
  have hcont : (intToString py ++ "-12-31").data.contains '/' = false := by
    rw [hsdata]
    simp only [List.contains, List.elem, hfa.2.2.1, hfb.2.2.1, hfc.2.2.1, hfd.2.2.1]
    decide
  have hnorm : normalizeDateValue fallback (intToString py ++ "-12-31") =
      intToString py ++ "-12-31" := by
    unfold normalizeDateValue
    rw [if_neg hnz, if_neg (by rw [hcont]; simp), if_pos hiso]
  have hyear : ((1000 * digitVal (charOfDigit a) + 100 * digitVal (charOfDigit b) +
      10 * digitVal (charOfDigit c) + digitVal (charOfDigit d) : ℕ) : ℤ) = py := by
    rw [hfa.2.1, hfb.2.1, hfc.2.1, hfd.2.1]
    push_cast
    omega
  have hparse : parseNormalizedDate (intToString py ++ "-12-31") =
      some ⟨py, 11, 31⟩ := by
    unfold parseNormalizedDate
    rw [if_neg (by rw [hiso]; simp [hnz])]
    unfold isoParts
    rw [hsdata]
    dsimp only
    have hm12 : (10 * digitVal '1' + digitVal '2' : ℕ) = 12 := by decide
    have hd31 : (10 * digitVal '3' + digitVal '1' : ℕ) = 31 := by decide
    rw [hm12, hd31]
    have : mkJsDate ((1000 * digitVal (charOfDigit a) + 100 * digitVal (charOfDigit b) +
        10 * digitVal (charOfDigit c) + digitVal (charOfDigit d) : ℕ) : ℤ)
        ((12 : ℕ) - 1 : ℤ) (31 : ℕ) = ⟨py, 11, 31⟩ := by
      rw [hyear]
      norm_num
      exact mkJsDate_dec31 py (by omega)
    rw [this]
  unfold formatDateForInput
  rw [hnorm, hparse]
  unfold formatDayMonthYear
  dsimp only
  have hp31 : pad2 31 = "31" := by decide
  have hp12 : pad2 (11 + 1) = "12" := by decide
  rw [hp31, hp12]
  apply String.ext
  show ("31" : String).data ++ ("/" : String).data ++ ("12" : String).data ++
    ("/" : String).data ++ (intToString py).data = ("31/12/" : String).data ++ (intToString py).data
  simp


/-- **C7.** For every current calendar year and year value whose payout
year `max(currentYear − 1 + ⌈yearValue⌉, currentYear)` is a four-digit
year (as the system clock's year always is), `getWithdrawalDate` returns
the ISO string `"<payoutYear>-12-31"` — December 31 of the payout year —
and the label `"31/12/<payoutYear>"`, i.e. that date formatted
`DD/MM/YYYY`; in particular `formatDateForInput` round-trips the
constructed ISO date exactly.  (Outside the four-digit range the year part
of `${payoutYear}-12-31` no longer matches the ISO pattern and the label
comes from the implementation-defined generic parser via the template
fallback of the `||`.) -/
theorem getWithdrawalDate_spec (fallback : String → Option JsDate) (currentYear : ℤ)
    (yearValue : ℚ) (py : ℤ) (hpy : py = max (currentYear - 1 + ⌈yearValue⌉) currentYear)
    (h1 : 1000 ≤ py) (h2 : py ≤ 9999) :
    getWithdrawalDate fallback currentYear yearValue =
      (intToString py ++ "-12-31", "31/12/" ++ intToString py) := by
  unfold getWithdrawalDate
  dsimp only
  rw [← hpy, formatDateForInput_payout fallback py h1 h2]
  have h3 : ("31/12/" ++ intToString py).data =
      '3' :: '1' :: '/' :: '1' :: '2' :: '/' :: (intToString py).data := rfl
  rw [if_pos (by intro hcon; rw [hcon] at h3; simp at h3)]

/-- Closed instance of C7: `currentYear = 2025`, `yearValue = 3` gives
payout year 2027, ISO `"2027-12-31"` and label `"31/12/2027"`, via
`getWithdrawalDate_spec` at a concrete input. -/
theorem getWithdrawalDate_spec_witness :
    (2027 : ℤ) = max (2025 - 1 + ⌈(3:ℚ)⌉) 2025 ∧
      getWithdrawalDate (fun _ => none) 2025 3 = ("2027-12-31", "31/12/2027") := by
  have hpy : (2027 : ℤ) = max (2025 - 1 + ⌈(3:ℚ)⌉) 2025 := by
    norm_num
  refine ⟨hpy, ?_⟩
  have h := getWithdrawalDate_spec (fun _ => none) 2025 3 2027 hpy (by norm_num) (by norm_num)
  rw [h]
  have he : intToString 2027 = "2027" := by decide
  rw [he]
  decide

end CompoundCalc

namespace CompoundCalc

/-! ## C8: multi-scenario chart aggregation (`chartData`) -/

/-- A JS object record `scenarioId ↦ balance` (insertion order kept). -/
abbrev ChartRec := List (String × ℚ)

/-- Property read `r[sid]`. -/
def recGet (r : ChartRec) (sid : String) : Option ℚ :=
  match r with
  | [] => none
  | (k, v) :: rest => if k = sid then some v else recGet rest sid

/-- Property write `r[sid] = v`: update in place or append. -/
def recSet (r : ChartRec) (sid : String) (v : ℚ) : ChartRec :=
  match r with
  | [] => [(sid, v)]
  | (k, v') :: rest => if k = sid then (k, v) :: rest else (k, v') :: recSet rest sid v

/-- The insertion-ordered `Map` from year to record. -/
abbrev YearMap := List (ℚ × ChartRec)

/-- `yearMap.get(y)`. -/
def mapGet (m : YearMap) (y : ℚ) : Option ChartRec :=
  match m with
  | [] => none
  | (k, r) :: rest => if k = y then some r else mapGet rest y

/-- `yearMap.set(y, r)`: update in place or append (a JS `Map` keeps the
insertion order of the first insertion of each key). -/
def mapSet (m : YearMap) (y : ℚ) (r : ChartRec) : YearMap :=
  match m with
  | [] => [(y, r)]
  | (k, r') :: rest => if k = y then (k, r) :: rest else (k, r') :: mapSet rest y r

/-- The body of the inner `forEach`:
`existing = yearMap.get(point.year) ?? {}; existing[scenario.id] =
point.balance; yearMap.set(point.year, existing)`. -/
def insertPoint (m : YearMap) (sid : String) (pt : ProjectionPoint) : YearMap :=
  mapSet m pt.year (recSet ((mapGet m pt.year).getD []) sid pt.balance)

/-- Insertion into a year-sorted list (`≤` on the year component). -/
def insertSorted (x : ℚ × ChartRec) : YearMap → YearMap
  | [] => [x]
  | y :: ys => if x.1 ≤ y.1 then x :: y :: ys else y :: insertSorted x ys

/-- `.sort((a, b) => a.year - b.year)`: an ascending comparison sort (the
year keys are distinct, so every correct sort produces the same list). -/
def sortByYear : YearMap → YearMap
  | [] => []
  | x :: xs => insertSorted x (sortByYear xs)

/-- `chartData`: every scenario's chart points are folded into the shared
year map (the spread record `{year, ...entry}` is modelled as the pair),
and the entries are sorted ascending by year. -/
def chartData (scenarios : List (String × List ProjectionPoint)) : YearMap :=
  sortByYear
    (scenarios.foldl (fun m sc => sc.2.foldl (fun m pt => insertPoint m sc.1 pt) m) [])

/-- The scenario/point pairs in the order the nested `forEach` visits
them. -/
def scenarioPairs (scenarios : List (String × List ProjectionPoint)) :
    List (String × ProjectionPoint) :=
  scenarios.flatMap (fun sc => sc.2.map (fun pt => (sc.1, pt)))

/-- The nested fold, flattened over `scenarioPairs`. -/
def buildMap (pairs : List (String × ProjectionPoint)) (m : YearMap) : YearMap :=
  pairs.foldl (fun m p => insertPoint m p.1 p.2) m

theorem buildMap_eq (scenarios : List (String × List ProjectionPoint)) (m0 : YearMap) :
    scenarios.foldl (fun m sc => sc.2.foldl (fun m pt => insertPoint m sc.1 pt) m) m0 =
      buildMap (scenarioPairs scenarios) m0 := by
  induction scenarios generalizing m0 with
  | nil => rfl
  | cons sc ss ih =>
    rw [List.foldl_cons, ih]
    show buildMap (scenarioPairs ss) _ =
      buildMap (sc.2.map (fun pt => (sc.1, pt)) ++ scenarioPairs ss) m0
    unfold buildMap
    rw [List.foldl_append, List.foldl_map]

theorem mapGet_mapSet_self (m : YearMap) (y : ℚ) (r : ChartRec) :
    mapGet (mapSet m y r) y = some r := by
  induction m with
  | nil => simp [mapSet, mapGet]
  | cons p rest ih =>
    obtain ⟨k, r'⟩ := p
    by_cases hk : k = y
    · simp [mapSet, mapGet, hk]
    · simp [mapSet, mapGet, hk, ih]

theorem mapGet_mapSet_ne (m : YearMap) (y y' : ℚ) (r : ChartRec) (h : y' ≠ y) :
    mapGet (mapSet m y r) y' = mapGet m y' := by
  induction m with
  | nil =>
    show mapGet [(y, r)] y' = none
    simp only [mapGet]
    rw [if_neg (fun hc => h hc.symm)]
  | cons p rest ih =>
    obtain ⟨k, r'⟩ := p
    by_cases hk : k = y
    · subst hk
      simp only [mapSet, if_pos rfl, mapGet]
      rw [if_neg (fun hc => h hc.symm), if_neg (fun hc => h hc.symm)]
    · simp only [mapSet, if_neg hk, mapGet]
      by_cases hk' : k = y'
      · rw [if_pos hk', if_pos hk']
      · rw [if_neg hk', if_neg hk', ih]

theorem recGet_recSet_self (r : ChartRec) (sid : String) (v : ℚ) :
    recGet (recSet r sid v) sid = some v := by
  induction r with
  | nil => simp [recSet, recGet]
  | cons p rest ih =>
    obtain ⟨k, v'⟩ := p
    by_cases hk : k = sid
    · simp [recSet, recGet, hk]
    · simp [recSet, recGet, hk, ih]

theorem recGet_recSet_ne (r : ChartRec) (sid sid' : String) (v : ℚ) (h : sid' ≠ sid) :
    recGet (recSet r sid v) sid' = recGet r sid' := by
  induction r with
  | nil =>
    show recGet [(sid, v)] sid' = none
    simp only [recGet]
    rw [if_neg (fun hc => h hc.symm)]
  | cons p rest ih =>
    obtain ⟨k, v'⟩ := p
    by_cases hk : k = sid
    · subst hk
      simp only [recSet, if_pos rfl, recGet]
      rw [if_neg (fun hc => h hc.symm), if_neg (fun hc => h hc.symm)]
    · simp only [recSet, if_neg hk, recGet]
      by_cases hk' : k = sid'
      · rw [if_pos hk', if_pos hk']
      · rw [if_neg hk', if_neg hk', ih]


/-- The merged balance of scenario `sid` at year `y` in a year map. -/
def lookup2 (m : YearMap) (y : ℚ) (sid : String) : Option ℚ :=
  (mapGet m y).bind (fun r => recGet r sid)

theorem lookup2_insertPoint (m : YearMap) (sid' : String) (pt : ProjectionPoint)
    (y : ℚ) (sid : String) :
    lookup2 (insertPoint m sid' pt) y sid =
      if pt.year = y ∧ sid' = sid then some pt.balance else lookup2 m y sid := by
  unfold insertPoint lookup2
  by_cases hy : pt.year = y
  · subst hy
    rw [mapGet_mapSet_self]
    by_cases hsid : sid' = sid
    · subst hsid
      rw [if_pos ⟨rfl, rfl⟩]
      show recGet (recSet ((mapGet m pt.year).getD []) sid' pt.balance) sid' =
        some pt.balance
      exact recGet_recSet_self _ _ _
    · rw [if_neg (fun hc => hsid hc.2)]
      cases hget : mapGet m pt.year with
      | none =>
        show recGet (recSet [] sid' pt.balance) sid = none
        rw [recGet_recSet_ne _ _ _ _ (fun hc => hsid hc.symm)]
        rfl
      | some r =>
        show recGet (recSet r sid' pt.balance) sid = recGet r sid
        exact recGet_recSet_ne _ _ _ _ (fun hc => hsid hc.symm)
  · rw [mapGet_mapSet_ne _ _ _ _ (fun hc => hy hc.symm), if_neg (fun hc => hy hc.1)]

theorem getLast?_cons_or {α : Type} (x : α) (l : List α) :
    (x :: l).getLast? = l.getLast?.or (some x) := by
  cases l with
  | nil => rfl
  | cons y ys =>
    rw [List.getLast?_cons_cons]
    cases hly : (y :: ys).getLast? with
    | none => exact absurd hly (by simp)
    | some z => rfl

theorem lookup2_buildMap (pairs : List (String × ProjectionPoint)) :
    ∀ (m : YearMap) (y : ℚ) (sid : String),
      lookup2 (buildMap pairs m) y sid =
        ((pairs.filter (fun p => p.2.year == y && p.1 == sid)).getLast?).elim
          (lookup2 m y sid) (fun p => some p.2.balance) := by
  induction pairs with
  | nil => intro m y sid; rfl
  | cons p ps ih =>
    intro m y sid
    show lookup2 (buildMap ps (insertPoint m p.1 p.2)) y sid = _
    rw [ih]
    by_cases hmatch : (p.2.year == y && p.1 == sid) = true
    · have hcond : p.2.year = y ∧ p.1 = sid := by
        simpa [Bool.and_eq_true, beq_iff_eq] using hmatch
      rw [List.filter_cons, if_pos hmatch, getLast?_cons_or]
      cases hlast : (ps.filter (fun p => p.2.year == y && p.1 == sid)).getLast? with
      | none =>
        simp only [Option.or, Option.elim]
        rw [lookup2_insertPoint, if_pos hcond]
      | some q => simp [Option.or]
    · have hcond : ¬ (p.2.year = y ∧ p.1 = sid) := by
        intro hc
        exact hmatch (by simp [hc.1, hc.2])
      rw [List.filter_cons, if_neg hmatch]
      cases hlast : (ps.filter (fun p => p.2.year == y && p.1 == sid)).getLast? with
      | none =>
        simp only [Option.elim]
        rw [lookup2_insertPoint, if_neg hcond]
      | some q => simp


theorem mem_keys_mapSet (m : YearMap) (y y' : ℚ) (r : ChartRec) :
    y' ∈ (mapSet m y r).map Prod.fst ↔ y' ∈ m.map Prod.fst ∨ y' = y := by
  induction m with
  | nil => simp [mapSet]
  | cons p rest ih =>
    obtain ⟨k, r'⟩ := p
    by_cases hk : k = y
    · subst hk
      simp [mapSet]
      tauto
    · simp only [mapSet, if_neg hk, List.map_cons, List.mem_cons, ih]
      tauto

theorem keys_nodup_mapSet (m : YearMap) (y : ℚ) (r : ChartRec)
    (h : (m.map Prod.fst).Nodup) : ((mapSet m y r).map Prod.fst).Nodup := by
  induction m with
  | nil => simp [mapSet]
  | cons p rest ih =>
    obtain ⟨k, r'⟩ := p
    simp only [List.map_cons, List.nodup_cons] at h
    by_cases hk : k = y
    · subst hk
      simp only [mapSet, if_true]
      simp only [List.map_cons, List.nodup_cons]
      exact h
    · simp only [mapSet, if_neg hk]
      simp only [List.map_cons, List.nodup_cons]
      refine ⟨?_, ih h.2⟩
      rw [mem_keys_mapSet]
      rintro (hc | hc)
      · exact h.1 hc
      · exact hk hc

theorem keys_nodup_buildMap (pairs : List (String × ProjectionPoint)) :
    ∀ m : YearMap, (m.map Prod.fst).Nodup → ((buildMap pairs m).map Prod.fst).Nodup := by
  induction pairs with
  | nil => exact fun m h => h
  | cons p ps ih =>
    intro m h
    exact ih _ (keys_nodup_mapSet _ _ _ h)

theorem mem_keys_buildMap (pairs : List (String × ProjectionPoint)) :
    ∀ (m : YearMap) (y : ℚ),
      y ∈ (buildMap pairs m).map Prod.fst ↔
        y ∈ m.map Prod.fst ∨ ∃ p ∈ pairs, p.2.year = y := by
  induction pairs with
  | nil => simp [buildMap]
  | cons p ps ih =>
    intro m y
    show y ∈ (buildMap ps (insertPoint m p.1 p.2)).map Prod.fst ↔ _
    rw [ih]
    unfold insertPoint
    rw [mem_keys_mapSet]
    simp only [List.mem_cons]
    constructor
    · rintro ((h | h) | h)
      · exact Or.inl h
      · exact Or.inr ⟨p, Or.inl rfl, h.symm⟩
      · obtain ⟨q, hq, hqy⟩ := h
        exact Or.inr ⟨q, Or.inr hq, hqy⟩
    · rintro (h | ⟨q, hq | hq, hqy⟩)
      · exact Or.inl (Or.inl h)
      · subst hq
        exact Or.inl (Or.inr hqy.symm)
      · exact Or.inr ⟨q, hq, hqy⟩

theorem mapGet_eq_some_of_mem (m : YearMap) (y : ℚ) (r : ChartRec)
    (hn : (m.map Prod.fst).Nodup) (hm : (y, r) ∈ m) : mapGet m y = some r := by
  induction m with
  | nil => simp at hm
  | cons p rest ih =>
    obtain ⟨k, r'⟩ := p
    simp only [List.map_cons, List.nodup_cons] at hn
    rcases List.mem_cons.mp hm with heq | htail
    · injection heq with h1 h2
      subst h1
      subst h2
      simp [mapGet]
    · have hky : k ≠ y := by
        intro hc
        subst hc
        exact hn.1 (List.mem_map.mpr ⟨(k, r), htail, rfl⟩)
      simp only [mapGet, if_neg hky]
      exact ih hn.2 htail


theorem perm_insertSorted (x : ℚ × ChartRec) (l : YearMap) :
    (insertSorted x l).Perm (x :: l) := by
  induction l with
  | nil => exact List.Perm.refl _
  | cons y ys ih =>
    unfold insertSorted
    by_cases h : x.1 ≤ y.1
    · rw [if_pos h]
    · rw [if_neg h]
      exact (ih.cons y).trans (List.Perm.swap x y ys)

theorem perm_sortByYear (l : YearMap) : (sortByYear l).Perm l := by
  induction l with
  | nil => exact List.Perm.refl _
  | cons x xs ih =>
    exact (perm_insertSorted x (sortByYear xs)).trans (ih.cons x)

theorem sorted_insertSorted (x : ℚ × ChartRec) (l : YearMap)
    (h : l.Pairwise (fun a b => a.1 ≤ b.1)) :
    (insertSorted x l).Pairwise (fun a b => a.1 ≤ b.1) := by
  induction l with
  | nil => simp [insertSorted]
  | cons y ys ih =>
    unfold insertSorted
    rcases List.pairwise_cons.mp h with ⟨hy, hys⟩
    by_cases hle : x.1 ≤ y.1
    · rw [if_pos hle]
      refine List.pairwise_cons.mpr ⟨?_, h⟩
      intro z hz
      rcases List.mem_cons.mp hz with rfl | hz'
      · exact hle
      · exact le_trans hle (hy z hz')
    · rw [if_neg hle]
      refine List.pairwise_cons.mpr ⟨?_, ih hys⟩
      intro z hz
      have := (perm_insertSorted x ys).mem_iff.mp hz
      rcases List.mem_cons.mp this with rfl | hz'
      · exact le_of_not_le hle
      · exact hy z hz'

theorem sorted_sortByYear (l : YearMap) :
    (sortByYear l).Pairwise (fun a b => a.1 ≤ b.1) := by
  induction l with
  | nil => simp [sortByYear]
  | cons x xs ih => exact sorted_insertSorted x (sortByYear xs) ih

theorem pairs_filter_of_mem (scenarios : List (String × List ProjectionPoint))
    (hids : (scenarios.map Prod.fst).Nodup) (sid : String) (pts : List ProjectionPoint)
    (hmem : (sid, pts) ∈ scenarios) (y : ℚ) :
    (scenarioPairs scenarios).filter (fun p => p.2.year == y && p.1 == sid) =
      (pts.filter (fun pt => pt.year == y)).map (fun pt => (sid, pt)) := by
  induction scenarios with
  | nil => simp at hmem
  | cons sc ss ih =>
    simp only [List.map_cons, List.nodup_cons] at hids
    show ((sc.2.map (fun pt => (sc.1, pt)) ++ scenarioPairs ss).filter
      (fun p => p.2.year == y && p.1 == sid)) = _
    rw [List.filter_append]
    rcases List.mem_cons.mp hmem with heq | htail
    · obtain ⟨h1, h2⟩ : sc.1 = sid ∧ sc.2 = pts := by
        rw [← heq]
        exact ⟨rfl, rfl⟩
      subst h1
      subst h2
      have htailnil : (scenarioPairs ss).filter (fun p => p.2.year == y && p.1 == sc.1) =
          [] := by
        rw [List.filter_eq_nil_iff]
        intro p hp
        simp only [scenarioPairs, List.mem_flatMap, List.mem_map] at hp
        obtain ⟨sc', hsc', pt, hpt, rfl⟩ := hp
        simp only [Bool.and_eq_true, beq_iff_eq, not_and]
        intro hy hc
        exact hids.1 (hc ▸ List.mem_map.mpr ⟨sc', hsc', rfl⟩)
      rw [htailnil, List.append_nil, List.filter_map]
      congr 1
      apply List.filter_congr
      intro pt hpt
      simp [Function.comp]
    · have hsid_ne : sc.1 ≠ sid := by
        intro hc
        subst hc
        exact hids.1 (List.mem_map.mpr ⟨(sc.1, pts), htail, rfl⟩)
      have hheadnil : (sc.2.map (fun pt => (sc.1, pt))).filter
          (fun p => p.2.year == y && p.1 == sid) = [] := by
        rw [List.filter_eq_nil_iff]
        intro p hp
        simp only [List.mem_map] at hp
        obtain ⟨pt, hpt, rfl⟩ := hp
        simp only [Bool.and_eq_true, beq_iff_eq, not_and]
        intro hy
        exact hsid_ne
      rw [hheadnil, List.nil_append]
      exact ih hids.2 htail


theorem mem_pair_key (m : YearMap) (y : ℚ) :
    (∃ r, (y, r) ∈ m) ↔ y ∈ m.map Prod.fst := by
  constructor
  · rintro ⟨r, hr⟩
    exact List.mem_map.mpr ⟨(y, r), hr, rfl⟩
  · intro h
    obtain ⟨x, hx, hxy⟩ := List.mem_map.mp h
    refine ⟨x.2, ?_⟩
    rw [← hxy]
    exact hx

/-- **C8.** For scenarios with distinct ids, the merged chart series is
sorted strictly ascending by year, and for every year record in the output
and every scenario `sid`: the record's entry for `sid` is exactly the
balance of `sid`'s last chart point at that exact year (a JS object write
per point, later points overwriting), so the key is present iff the
scenario has a chart point at exactly that year — a scenario with no point
at that year leaves its key absent, not zero; and a year appears in the
output iff some scenario has a chart point at it. -/
theorem chartData_merge_spec (scenarios : List (String × List ProjectionPoint))
    (hids : (scenarios.map Prod.fst).Nodup) :
    ((chartData scenarios).map Prod.fst).Pairwise (· < ·) ∧
    (∀ y r, (y, r) ∈ chartData scenarios → ∀ sid pts, (sid, pts) ∈ scenarios →
      recGet r sid =
        ((pts.filter (fun pt => pt.year == y)).map (fun pt => pt.balance)).getLast?) ∧
    (∀ y r, (y, r) ∈ chartData scenarios → ∀ sid pts, (sid, pts) ∈ scenarios →
      ((recGet r sid).isSome ↔ ∃ pt ∈ pts, pt.year = y)) ∧
    (∀ y, (∃ r, (y, r) ∈ chartData scenarios) ↔
      ∃ sp ∈ scenarios, ∃ pt ∈ sp.2, pt.year = y) := by
  have hcd : chartData scenarios = sortByYear (buildMap (scenarioPairs scenarios) []) := by
    unfold chartData
    rw [buildMap_eq]
  set m := buildMap (scenarioPairs scenarios) [] with hm
  have hkeysnodup : (m.map Prod.fst).Nodup := keys_nodup_buildMap _ [] (by simp)
  have hperm : (sortByYear m).Perm m := perm_sortByYear m
  have hmain : ∀ y r, (y, r) ∈ chartData scenarios → ∀ sid pts, (sid, pts) ∈ scenarios →
      recGet r sid =
        ((pts.filter (fun pt => pt.year == y)).map (fun pt => pt.balance)).getLast? := by
    intro y r hmem sid pts hsc
    rw [hcd] at hmem
    have hmem' : (y, r) ∈ m := hperm.mem_iff.mp hmem
    have hget : mapGet m y = some r := mapGet_eq_some_of_mem m y r hkeysnodup hmem'
    have hl2 : lookup2 m y sid = recGet r sid := by
      unfold lookup2
      rw [hget]
      rfl
    rw [← hl2, hm, lookup2_buildMap,
      pairs_filter_of_mem scenarios hids sid pts hsc y]
    cases hlast : (pts.filter (fun pt => pt.year == y)).getLast? with
    | none =>
      rw [List.getLast?_map, hlast, List.getLast?_map, hlast]
      rfl
    | some pt =>
      rw [List.getLast?_map, hlast, List.getLast?_map, hlast]
      rfl
  refine ⟨?_, hmain, ?_, ?_⟩
  · rw [hcd]
    have hsorted := sorted_sortByYear m
    have hnodup_sorted : ((sortByYear m).map Prod.fst).Nodup :=
      ((hperm.map Prod.fst).nodup_iff).mpr hkeysnodup
    have hne : (sortByYear m).Pairwise (fun a b => a.1 ≠ b.1) :=
      List.pairwise_map.mp hnodup_sorted
    exact List.pairwise_map.mpr ((hsorted.and hne).imp (fun h => lt_of_le_of_ne h.1 h.2))
  · intro y r hmem sid pts hsc
    rw [hmain y r hmem sid pts hsc]
    have hiff : (pts.filter (fun pt => pt.year == y)) ≠ [] ↔ ∃ pt ∈ pts, pt.year = y := by
      rw [ne_eq, List.filter_eq_nil_iff]
      push_neg
      simp only [beq_iff_eq]
    rw [← hiff]
    cases hlast : (pts.filter (fun pt => pt.year == y)).getLast? with
    | none =>
      rw [List.getLast?_map, hlast]
      constructor
      · intro hc
        exact (Bool.false_ne_true hc).elim
      · intro hc
        exact absurd ((List.getLast?_eq_none_iff).mp hlast) hc
    | some pt =>
      rw [List.getLast?_map, hlast]
      constructor
      · intro _ hc
        rw [hc] at hlast
        simp at hlast
      · intro _
        rfl
  · intro y
    rw [hcd]
    have h1 : (∃ r, (y, r) ∈ sortByYear m) ↔ ∃ r, (y, r) ∈ m := by
      constructor <;> rintro ⟨r, hr⟩ <;> exact ⟨r, by
        first
          | exact hperm.mem_iff.mp hr
          | exact hperm.mem_iff.mpr hr⟩
    rw [h1, mem_pair_key, hm, mem_keys_buildMap]
    simp only [List.map_nil, List.not_mem_nil, false_or]
    unfold scenarioPairs
    constructor
    · rintro ⟨p, hp, hpy⟩
      simp only [List.mem_flatMap, List.mem_map] at hp
      obtain ⟨sc, hscmem, pt, hptmem, hpeq⟩ := hp
      subst hpeq
      exact ⟨sc, hscmem, pt, hptmem, hpy⟩
    · rintro ⟨sp, hsp, pt, hpt, hpy⟩
      exact ⟨(sp.1, pt), by
        simp only [List.mem_flatMap, List.mem_map]
        exact ⟨sp, hsp, pt, hpt, rfl⟩, hpy⟩

end CompoundCalc

namespace CompoundCalc

/-- Two scenarios on different year grids, sharing only year 0. -/
def witnessScenarios : List (String × List ProjectionPoint) :=
  [("a", [⟨0, 100⟩, ⟨1, 110⟩]), ("b", [⟨0, 100⟩, ⟨2, 120⟩])]

/-- Closed instance of C8: the two-scenario merge is sorted ascending by
year, via `chartData_merge_spec` at a concrete input. -/
theorem chartData_merge_spec_witness :
    (witnessScenarios.map Prod.fst).Nodup ∧
      ((chartData witnessScenarios).map Prod.fst).Pairwise (· < ·) :=
  ⟨by decide, (chartData_merge_spec witnessScenarios (by decide)).1⟩

end CompoundCalc
